import Mathlib

/-!
Verification development for the dungeonpunk server-authoritative gameplay
kernel.  The definitions below are a shallow embedding of the TypeScript
sources:

* `engine/src/prng.ts`   — `XorShift32`, `hashSeed`
* `engine/src/maze.ts`   — `generateChunkMaze` (recursive-backtracker variant)
                           and `generateChunkBsp` (BSP variant),
                           `baseEdgeTypeFromChunk`
* `engine/src/world.ts`  — both revisions of `WorldEngine`: the chunk-based
                           oracle (`ChunkWorld`) and the overlay-only oracle
                           with relative movement (`OverlayWorld`),
                           `computeOmniRays`
* `server/src/overlays.ts` — the symmetric edge-write path
* `server/src/ws.ts`     — the move handlers and the sequence gate

JavaScript 32-bit integer arithmetic is modelled on `Nat` with explicit
`% 4294967296`; JS `%` on integers is `Int.tmod`; `Math.floor(a / b)` is
`Int.fdiv`.  Comparisons of `float01()` against decimal constants are
modelled as exact rational comparisons of the underlying 32-bit numerator
(double rounding at the exact threshold is not modelled; no claim below
depends on the placement of those thresholds).
-/

/-- Cardinal direction (engine/src/types.ts, `Dir`). -/
inductive Dir where
  | N | E | S | W
deriving Repr, DecidableEq, Inhabited

/-- Edge kind (engine/src/types.ts, `EdgeType`).  The source string
`"open"` is a Lean keyword, hence the constructor name `open_`. -/
inductive EdgeType where
  | wall | open_ | door_locked | door_unlocked | lever_secret
deriving Repr, DecidableEq, Inhabited

/-- `oppositeOf` from engine/src/world.ts (also `opposite` in
server/src/overlays.ts and `oppositeDir` in server/src/ws.ts). -/
def oppositeOf (d : Dir) : Dir :=
  match d with
  | .N => .S
  | .S => .N
  | .E => .W
  | .W => .E

/-- `step` from engine/src/world.ts: the neighbour cell in direction `dir`. -/
def step (x y : Int) (dir : Dir) : Int × Int :=
  match dir with
  | .N => (x, y - 1)
  | .S => (x, y + 1)
  | .E => (x + 1, y)
  | .W => (x - 1, y)

/-! ## PRNG and seed mixer (engine/src/prng.ts) -/

/-- 2^32, the modulus of all JS 32-bit bit operations. -/
def U32 : Nat := 4294967296

/-- Reinterpret the low 32 bits as a signed 32-bit integer (JS `| 0`). -/
def toInt32 (n : Nat) : Int :=
  let m := n % U32
  if m < 2147483648 then (m : Int) else (m : Int) - (U32 : Int)

/-- State of the xorshift PRNG (`class XorShift32`): the unsigned 32-bit
view of the mutable field `s`. -/
structure XorShift32 where
  s : Nat
deriving Repr, DecidableEq

/-- Constructor `new XorShift32(seed)`: `this.s = (seed | 0) || 0x9e3779b9`
(force a non-zero 32-bit state). -/
def XorShift32.init (seed : Int) : XorShift32 :=
  let u := (seed.emod (U32 : Int)).toNat
  ⟨if u = 0 then 0x9e3779b9 else u⟩

/-- `nextU32()`: one xorshift32 round with the shift triple (13, 17, 5);
returns the new unsigned 32-bit value and the advanced generator. -/
def XorShift32.nextU32 (g : XorShift32) : Nat × XorShift32 :=
  let x0 := g.s
  let x1 := (x0 ^^^ (x0 <<< 13)) % U32
  let x2 := x1 ^^^ (x1 >>> 17)
  let x3 := (x2 ^^^ (x2 <<< 5)) % U32
  (x3, ⟨x3⟩)

/-- `int(minInclusive, maxExclusive)`: integer in `[min, max)` as
`min + nextU32() % span`; returns `min` without consuming the generator
when `max ≤ min`.  Arguments are integers throughout the engine, so the
`Math.floor` coercions are identities. -/
def XorShift32.int (g : XorShift32) (minI maxE : Int) : Int × XorShift32 :=
  if maxE > minI then
    let (u, g') := g.nextU32
    (minI + (u : Int) % (maxE - minI), g')
  else (minI, g)

/-- `float01()` produces `nextU32() / 0xffffffff`; we keep the 32-bit
numerator `u` so that a comparison `float01() < num/den` is the exact
rational test `u * den < num * 0xffffffff`. -/
def XorShift32.float01N (g : XorShift32) : Nat × XorShift32 := g.nextU32

/-- Exact rational model of `u / 0xffffffff < num / den`. -/
def fltLt (u num den : Nat) : Bool := u * den < num * 4294967295

/-- Swap two positions of an array (the body of one Fisher-Yates step);
out-of-range writes are dropped as by `set!`. -/
def arrSwap [Inhabited α] (a : Array α) (i j : Nat) : Array α :=
  let t := a.get! i
  (a.set! i (a.get! j)).set! j t

/-- The descending Fisher-Yates loop of `shuffleInPlace`, from index `i`
down to 1 (`i` is the current loop index). -/
def shuffleGo [Inhabited α] (g : XorShift32) (a : Array α) : Nat → Array α × XorShift32
  | 0 => (a, g)
  | i + 1 =>
    let (j, g') := g.int 0 ((i : Int) + 2)
    let a' := arrSwap a (i + 1) j.toNat
    shuffleGo g' a' i

/-- `shuffleInPlace(arr)`: Fisher-Yates with `int(0, i + 1)`. -/
def XorShift32.shuffle [Inhabited α] (g : XorShift32) (a : Array α) : Array α × XorShift32 :=
  if a.size = 0 then (a, g) else shuffleGo g a (a.size - 1)

/-- One FNV-1a fold of an unsigned 32-bit value (`mixU32` in `hashSeed`). -/
def fnvMix (h v : Nat) : Nat := ((h ^^^ v) * 16777619) % U32

/-- `hashSeed(seed, levelId, chunkX, chunkY, label)`: FNV-1a over the four
integers and the label bytes, then the avalanche finalizer with the
multipliers 0x7feb352d and 0x846ca68b; the JS function returns `h | 0`. -/
def hashSeed (seed levelId chunkX chunkY : Int) (label : String) : Int :=
  let h0 : Nat := 2166136261
  let h1 := fnvMix h0 (seed.emod (U32 : Int)).toNat
  let h2 := fnvMix h1 (levelId.emod (U32 : Int)).toNat
  let h3 := fnvMix h2 (chunkX.emod (U32 : Int)).toNat
  let h4 := fnvMix h3 (chunkY.emod (U32 : Int)).toNat
  let h5 := label.toList.foldl (fun h c => fnvMix h (c.toNat &&& 255)) h4
  let h6 := h5 ^^^ (h5 >>> 16)
  let h7 := (h6 * 0x7feb352d) % U32
  let h8 := h7 ^^^ (h7 >>> 15)
  let h9 := (h8 * 0x846ca68b) % U32
  let h10 := h9 ^^^ (h9 >>> 16)
  toInt32 h10

/-! ## Chunk data model (engine/src/types.ts) -/

/-- `CHUNK_SIZE` (engine/src/world.ts and engine/src/maze.ts). -/
def CHUNK_SIZE : Int := 64

/-- `ChunkEdges`: per-cell east and south edges of one 64 x 64 chunk,
encoded 0 = wall, 1 = open, 2 = door (unlocked). -/
structure ChunkEdges where
  seed : Int
  levelId : Int
  chunkX : Int
  chunkY : Int
  east : Array Nat
  south : Array Nat
deriving Repr, DecidableEq

/-! ## Maze generator (engine/src/maze.ts, recursive-backtracker variant) -/

namespace Maze

/-- `EDGE_WALL` encoding constant. -/
def EDGE_WALL : Nat := 0
/-- `EDGE_OPEN` encoding constant. -/
def EDGE_OPEN : Nat := 1
/-- `EDGE_DOOR` encoding constant. -/
def EDGE_DOOR : Nat := 2

/-- `idx(x, y) = y * CHUNK_SIZE + x` as an array index. -/
def idx (x y : Int) : Nat := (y * 64 + x).toNat

/-- `inBounds(x, y)`: local coordinates within the 64 x 64 chunk. -/
def inBounds (x y : Int) : Bool := 0 ≤ x ∧ 0 ≤ y ∧ x < 64 ∧ y < 64

/-- `stepLocal(x, y, dir)`: neighbour in local chunk coordinates. -/
def stepLocal (x y : Int) (dir : Dir) : Int × Int :=
  match dir with
  | .N => (x, y - 1)
  | .S => (x, y + 1)
  | .E => (x + 1, y)
  | .W => (x - 1, y)

/-- `setEast`: write the east edge of (x, y) if in bounds. -/
def setEast (east : Array Nat) (x y : Int) (v : Nat) : Array Nat :=
  if inBounds x y then east.set! (idx x y) v else east

/-- `setSouth`: write the south edge of (x, y) if in bounds. -/
def setSouth (south : Array Nat) (x y : Int) (v : Nat) : Array Nat :=
  if inBounds x y then south.set! (idx x y) v else south

/-- `openBetween`: open the edge leaving (x, y) in direction `dir`. -/
def openBetween (east south : Array Nat) (x y : Int) (dir : Dir) (v : Nat) :
    Array Nat × Array Nat :=
  match dir with
  | .E => (setEast east x y v, south)
  | .S => (east, setSouth south x y v)
  | .W => (setEast east (x - 1) y v, south)
  | .N => (east, setSouth south x (y - 1) v)

/-- Mutable state of the DFS backtracker carve loop. -/
structure CarveSt where
  east : Array Nat
  south : Array Nat
  visited : Array Nat
  stack : List (Int × Int)
  dirs : Array Dir
  rng : XorShift32

/-- The `for (const d of dirs)` search: first shuffled direction whose
neighbour is in bounds and unvisited. -/
def firstUnvisited (visited : Array Nat) (x y : Int) : List Dir → Option (Dir × Int × Int)
  | [] => none
  | d :: rest =>
    let n := stepLocal x y d
    if inBounds n.1 n.2 ∧ visited.get! (idx n.1 n.2) = 0 then some (d, n.1, n.2)
    else firstUnvisited visited x y rest

/-- The `while (stack.length)` DFS loop, driven by fuel.  Each iteration
shuffles `dirs` in place, then either carves to the first unvisited
neighbour and pushes it, or pops the stack.  The loop performs at most
4096 pushes and 4097 pops, so any fuel of at least 8193 computes the
loop to completion; the generous constant in `generateChunkMaze` is
therefore behaviour-equivalent to the unbounded source loop. -/
def carveLoop : Nat → CarveSt → CarveSt
  | 0, st => st
  | fuel + 1, st =>
    match st.stack with
    | [] => st
    | cur :: rest =>
      let (dirs', rng') := st.rng.shuffle st.dirs
      match firstUnvisited st.visited cur.1 cur.2 dirs'.toList with
      | some (d, nx, ny) =>
        let (e', s') := openBetween st.east st.south cur.1 cur.2 d EDGE_OPEN
        let visited' := st.visited.set! (idx nx ny) 1
        carveLoop fuel ⟨e', s', visited', (nx, ny) :: cur :: rest, dirs', rng'⟩
      | none =>
        carveLoop fuel ⟨st.east, st.south, st.visited, rest, dirs', rng'⟩

/-- One attempt of `carveRooms`: roll a weighted size, carve the interior
open, then open one random perimeter edge. -/
def carveRoomAttempt (east south : Array Nat) (rng : XorShift32) :
    Array Nat × Array Nat × XorShift32 :=
  let (roll, rng) := rng.float01N
  let (w, h, rng) :=
    if fltLt roll 60 100 then ((2 : Int), (2 : Int), rng)
    else if fltLt roll 90 100 then
      let (c, rng) := rng.int 0 2
      if c = 0 then ((2 : Int), (3 : Int), rng) else ((3 : Int), (2 : Int), rng)
    else ((3 : Int), (3 : Int), rng)
  let (x0, rng) := rng.int 1 (64 - w - 1)
  let (y0, rng) := rng.int 1 (64 - h - 1)
  -- carve internal edges fully open
  let (east, south) :=
    (List.range h.toNat).foldl (fun (acc : Array Nat × Array Nat) dy =>
      (List.range w.toNat).foldl (fun (acc : Array Nat × Array Nat) dx =>
        let x := x0 + (dx : Int)
        let y := y0 + (dy : Int)
        let e := if x < x0 + w - 1 then setEast acc.1 x y EDGE_OPEN else acc.1
        let s := if y < y0 + h - 1 then setSouth acc.2 x y EDGE_OPEN else acc.2
        (e, s)) acc) (east, south)
  -- open one random perimeter edge
  let (side, rng) := rng.int 0 4
  if side = 0 then
    let (x, rng) := rng.int x0 (x0 + w)
    let y := y0
    (east, if y > 0 then setSouth south x (y - 1) EDGE_OPEN else south, rng)
  else if side = 1 then
    let x := x0 + w - 1
    let (y, rng) := rng.int y0 (y0 + h)
    (setEast east x y EDGE_OPEN, south, rng)
  else if side = 2 then
    let (x, rng) := rng.int x0 (x0 + w)
    let y := y0 + h - 1
    (east, setSouth south x y EDGE_OPEN, rng)
  else
    let x := x0
    let (y, rng) := rng.int y0 (y0 + h)
    (if x > 0 then setEast east (x - 1) y EDGE_OPEN else east, south, rng)

/-- `carveRooms`: 10 attempts (the calibrated constant of this variant). -/
def carveRooms (east south : Array Nat) (rng : XorShift32) :
    Array Nat × Array Nat × XorShift32 :=
  (List.range 10).foldl
    (fun (acc : Array Nat × Array Nat × XorShift32) _ =>
      carveRoomAttempt acc.1 acc.2.1 acc.2.2)
    (east, south, rng)

/-- `placeDoors`: scan all cells in row-major order; each OPEN east or
south edge is promoted to a door when `float01() < 0.035` (the RNG is
consumed only for OPEN edges, as by JS short-circuit evaluation). -/
def placeDoors (east south : Array Nat) (rng : XorShift32) :
    Array Nat × Array Nat × XorShift32 :=
  (List.range 64).foldl
    (fun (acc : Array Nat × Array Nat × XorShift32) y =>
      (List.range 64).foldl
        (fun (acc : Array Nat × Array Nat × XorShift32) x =>
          let (east, south, rng) := acc
          let i := idx (x : Int) (y : Int)
          let (east, rng) :=
            if east.get! i = EDGE_OPEN then
              let (u, rng') := rng.float01N
              (if fltLt u 35 1000 then east.set! i EDGE_DOOR else east, rng')
            else (east, rng)
          let (south, rng) :=
            if south.get! i = EDGE_OPEN then
              let (u, rng') := rng.float01N
              (if fltLt u 35 1000 then south.set! i EDGE_DOOR else south, rng')
            else (south, rng)
          (east, south, rng))
        acc)
    (east, south, rng)

end Maze

/-- `generateChunkMaze(seed, levelId, chunkX, chunkY)` from
engine/src/maze.ts: DFS backtracker carve seeded by
`hashSeed(..., "maze")`, then rooms, then doors. -/
def generateChunkMaze (seed levelId chunkX chunkY : Int) : ChunkEdges :=
  let rng := XorShift32.init (hashSeed seed levelId chunkX chunkY "maze")
  let east : Array Nat := Array.mkArray 4096 0
  let south : Array Nat := Array.mkArray 4096 0
  let visited : Array Nat := Array.mkArray 4096 0
  let (sx, rng) := rng.int 0 64
  let (sy, rng) := rng.int 0 64
  let visited := visited.set! (Maze.idx sx sy) 1
  let st0 : Maze.CarveSt := ⟨east, south, visited, [(sx, sy)], #[.N, .E, .S, .W], rng⟩
  let st := Maze.carveLoop 100000 st0
  let (east, south, rng) := Maze.carveRooms st.east st.south st.rng
  let (east, south, _) := Maze.placeDoors east south rng
  ⟨seed, levelId, chunkX, chunkY, east, south⟩

/-- `baseEdgeTypeFromChunk(chunk, lx, ly, dir)`: decode one edge of a
chunk; west and north read the east/south edge of the neighbour, with a
wall at the chunk-local border. -/
def baseEdgeTypeFromChunk (chunk : ChunkEdges) (lx ly : Int) (dir : Dir) : EdgeType :=
  if ¬ Maze.inBounds lx ly then .wall
  else
    match dir with
    | .E =>
      let v := chunk.east.get! (Maze.idx lx ly)
      if v = Maze.EDGE_DOOR then .door_unlocked else if v = Maze.EDGE_OPEN then .open_ else .wall
    | .S =>
      let v := chunk.south.get! (Maze.idx lx ly)
      if v = Maze.EDGE_DOOR then .door_unlocked else if v = Maze.EDGE_OPEN then .open_ else .wall
    | .W =>
      if lx = 0 then .wall
      else
        let v := chunk.east.get! (Maze.idx (lx - 1) ly)
        if v = Maze.EDGE_DOOR then .door_unlocked else if v = Maze.EDGE_OPEN then .open_ else .wall
    | .N =>
      if ly = 0 then .wall
      else
        let v := chunk.south.get! (Maze.idx lx (ly - 1))
        if v = Maze.EDGE_DOOR then .door_unlocked else if v = Maze.EDGE_OPEN then .open_ else .wall

/-! ## BSP generator (engine/src/maze.ts, BSP variant `bsp_v4`) -/

namespace Bsp

/-- Axis-aligned rectangle of the BSP tree. -/
structure Rect where
  x : Int
  y : Int
  w : Int
  h : Int
deriving Repr, DecidableEq

/-- A placed room: rectangle plus its representative centre point. -/
structure Room where
  x : Int
  y : Int
  w : Int
  h : Int
  cx : Int
  cy : Int
deriving Repr, DecidableEq

/-- BSP tree.  In the source, `left` and `right` are always both null or
both set, so the tree is either a leaf or an internal node; `room` lives
only on leaves and `conn` is the representative connection point. -/
inductive BspNode where
  | leaf (r : Rect) (room : Option Room) (conn : Option (Int × Int))
  | node (r : Rect) (l : BspNode) (rt : BspNode) (conn : Option (Int × Int))
deriving Repr

/-- `LEAF_MIN_W` tuning constant. -/
def LEAF_MIN_W : Int := 12
/-- `LEAF_MIN_H` tuning constant. -/
def LEAF_MIN_H : Int := 12
/-- `MAX_DEPTH` tuning constant. -/
def MAX_DEPTH : Nat := 6

/-- `clampInt(v, lo, hi)` (the `v | 0` is the identity on integers). -/
def clampInt (v lo hi : Int) : Int :=
  if v < lo then lo else if v > hi then hi else v

/-- `splitNode`: recursively split a rectangle until the minimum leaf
size or the maximum depth is reached.  The argument counts the remaining
depth (`MAX_DEPTH - depth` of the source). -/
def splitNode (rng : XorShift32) (r : Rect) : Nat → BspNode × XorShift32
  | 0 => (.leaf r none none, rng)
  | remaining + 1 =>
    let canSplitV : Bool := r.w ≥ LEAF_MIN_W * 2
    let canSplitH : Bool := r.h ≥ LEAF_MIN_H * 2
    if ¬ canSplitV ∧ ¬ canSplitH then (.leaf r none none, rng)
    else
      -- bias to split the longer side; `r.w / max(1, r.h) > 1.25` and
      -- `< 0.8` are modelled as the exact rational comparisons
      let hh := max 1 r.h
      let (splitVertical, rng) :=
        if canSplitV ∧ canSplitH then
          if r.w * 4 > hh * 5 then (true, rng)
          else if r.w * 5 < hh * 4 then (false, rng)
          else
            let (c, rng') := rng.int 0 2
            (c = 0, rng')
        else (canSplitV, rng)
      if splitVertical then
        let minX := r.x + LEAF_MIN_W
        let maxX := r.x + r.w - LEAF_MIN_W
        if maxX ≤ minX then (.leaf r none none, rng)
        else
          let (cut, rng) := rng.int minX (maxX + 1)
          let leftR : Rect := ⟨r.x, r.y, cut - r.x, r.h⟩
          let rightR : Rect := ⟨cut, r.y, r.x + r.w - cut, r.h⟩
          let (l, rng) := splitNode rng leftR remaining
          let (rt, rng) := splitNode rng rightR remaining
          (.node r l rt none, rng)
      else
        let minY := r.y + LEAF_MIN_H
        let maxY := r.y + r.h - LEAF_MIN_H
        if maxY ≤ minY then (.leaf r none none, rng)
        else
          let (cut, rng) := rng.int minY (maxY + 1)
          let topR : Rect := ⟨r.x, r.y, r.w, cut - r.y⟩
          let botR : Rect := ⟨r.x, cut, r.w, r.y + r.h - cut⟩
          let (l, rng) := splitNode rng topR remaining
          let (rt, rng) := splitNode rng botR remaining
          (.node r l rt none, rng)

/-- `sampleRoomSize`: bias small by taking the minimum of 3 rolls. -/
def sampleRoomSize (rng : XorShift32) (minS maxS : Int) : Int × XorShift32 :=
  if maxS ≤ minS then (minS, rng)
  else
    let (best, rng) :=
      (List.range 3).foldl
        (fun (acc : Int × XorShift32) _ =>
          let (v, rng') := acc.2.int minS (maxS + 1)
          (min acc.1 v, rng'))
        (maxS, rng)
    (clampInt best minS maxS, rng)

/-- `carveRectRoom`: open all interior edges of the rectangle. -/
def carveRectRoom (east south : Array Nat) (x y w h : Int) : Array Nat × Array Nat :=
  (List.range h.toNat).foldl
    (fun (acc : Array Nat × Array Nat) dy =>
      (List.range w.toNat).foldl
        (fun (acc : Array Nat × Array Nat) dx =>
          let xx := x + (dx : Int)
          let yy := y + (dy : Int)
          let e := if xx < x + w - 1 then acc.1.set! (Maze.idx xx yy) Maze.EDGE_OPEN else acc.1
          let s := if yy < y + h - 1 then acc.2.set! (Maze.idx xx yy) Maze.EDGE_OPEN else acc.2
          (e, s))
        acc)
    (east, south)

/-- Grid state threaded through the room and corridor passes. -/
structure GridSt where
  east : Array Nat
  south : Array Nat
  isRoom : Array Nat
  rng : XorShift32

/-- `placeRoomsAndCarve`: place one room per leaf (post-order is the
source order: left, then right), mark the room mask and carve the
interior. -/
def placeRoomsAndCarve (t : BspNode) (st : GridSt) : BspNode × GridSt :=
  match t with
  | .node r l rt conn =>
    let (l', st) := placeRoomsAndCarve l st
    let (rt', st) := placeRoomsAndCarve rt st
    (.node r l' rt' conn, st)
  | .leaf leaf _ _ =>
    let (pad, rng) := st.rng.int 1 4
    let usableW := max 1 (leaf.w - pad * 2)
    let usableH := max 1 (leaf.h - pad * 2)
    let (w, rng) := sampleRoomSize rng 2 (min 5 usableW)
    let (h, rng) := sampleRoomSize rng 2 (min 5 usableH)
    let xMin := leaf.x + pad
    let yMin := leaf.y + pad
    let xMax := leaf.x + leaf.w - pad - w
    let yMax := leaf.y + leaf.h - pad - h
    let (x, rng) :=
      if xMax ≥ xMin then rng.int xMin (xMax + 1)
      else (clampInt xMin leaf.x (leaf.x + leaf.w - w), rng)
    let (y, rng) :=
      if yMax ≥ yMin then rng.int yMin (yMax + 1)
      else (clampInt yMin leaf.y (leaf.y + leaf.h - h), rng)
    let room : Room := ⟨x, y, w, h, x + w.fdiv 2, y + h.fdiv 2⟩
    let isRoom :=
      (List.range h.toNat).foldl
        (fun (m : Array Nat) dy =>
          (List.range w.toNat).foldl
            (fun (m : Array Nat) dx =>
              m.set! (Maze.idx (x + (dx : Int)) (y + (dy : Int))) 1)
            m)
        st.isRoom
    let (east, south) := carveRectRoom st.east st.south room.x room.y room.w room.h
    (.leaf leaf (some room) (some (room.cx, room.cy)), ⟨east, south, isRoom, rng⟩)

/-- The BSP variant of `openBetween`: open the edge between two adjacent
cells, ignoring non-adjacent or out-of-bounds pairs.  (The carve loop can
call it on diagonal pairs, which it drops.) -/
def openBetween2 (east south : Array Nat) (x1 y1 x2 y2 : Int) : Array Nat × Array Nat :=
  if ¬ Maze.inBounds x1 y1 ∨ ¬ Maze.inBounds x2 y2 then (east, south)
  else
    let dx := x2 - x1
    let dy := y2 - y1
    if (dx.natAbs + dy.natAbs : Nat) ≠ 1 then (east, south)
    else if dx = 1 then (east.set! (Maze.idx x1 y1) Maze.EDGE_OPEN, south)
    else if dx = -1 then (east.set! (Maze.idx x2 y2) Maze.EDGE_OPEN, south)
    else if dy = 1 then (east, south.set! (Maze.idx x1 y1) Maze.EDGE_OPEN)
    else (east, south.set! (Maze.idx x2 y2) Maze.EDGE_OPEN)

/-- The `while (x !== x2 || y !== y2)` walk of `carveLine`, driven by
fuel.  Coordinates are clamped to the chunk, so the walk needs at most
63 + 63 steps; fuel 256 computes it to completion. -/
def carveLineGo (east south : Array Nat) (rng : XorShift32)
    (x y x2 y2 dx dy : Int) (wide : Bool) :
    Nat → Array Nat × Array Nat × XorShift32
  | 0 => (east, south, rng)
  | fuel + 1 =>
    if x = x2 ∧ y = y2 then (east, south, rng)
    else
      let nx := x + (if x ≠ x2 then dx else 0)
      let ny := y + (if y ≠ y2 then dy else 0)
      let (east, south) := openBetween2 east south x y nx ny
      let (east, south, rng) :=
        if wide then
          if x ≠ nx then
            let (c, rng') := rng.int 0 2
            let off : Int := if c = 0 then -1 else 1
            let y2w := clampInt (y + off) 0 63
            let ny2w := clampInt (ny + off) 0 63
            let (e, s) := openBetween2 east south x y2w nx ny2w
            (e, s, rng')
          else if y ≠ ny then
            let (c, rng') := rng.int 0 2
            let off : Int := if c = 0 then -1 else 1
            let x2w := clampInt (x + off) 0 63
            let nx2w := clampInt (nx + off) 0 63
            let (e, s) := openBetween2 east south x2w y nx2w ny
            (e, s, rng')
          else (east, south, rng)
        else (east, south, rng)
      carveLineGo east south rng nx ny x2 y2 dx dy wide fuel

/-- `carveLine`: straight (or diagonal-stepping) carve from (x1, y1) to
(x2, y2), occasionally widened by one cell. -/
def carveLine (east south : Array Nat) (x1 y1 x2 y2 : Int) (wide : Bool)
    (rng : XorShift32) : Array Nat × Array Nat × XorShift32 :=
  let x1 := clampInt x1 0 63
  let y1 := clampInt y1 0 63
  let x2 := clampInt x2 0 63
  let y2 := clampInt y2 0 63
  let dx := Int.sign (x2 - x1)
  let dy := Int.sign (y2 - y1)
  carveLineGo east south rng x1 y1 x2 y2 dx dy wide 256

/-- `carveCorridor`: connect two points with a straight or L-shaped
corridor, occasionally 2-wide, with a rare extra detour loop. -/
def carveCorridor (east south : Array Nat) (x1 y1 x2 y2 : Int)
    (rng : XorShift32) : Array Nat × Array Nat × XorShift32 :=
  let x1 := clampInt x1 0 63
  let y1 := clampInt y1 0 63
  let x2 := clampInt x2 0 63
  let y2 := clampInt y2 0 63
  let (wideRoll, rng) := rng.int 0 12
  let wide := wideRoll = 0
  let (horizRoll, rng) := rng.int 0 2
  let horizFirst := horizRoll = 0
  if x1 = x2 ∨ y1 = y2 then carveLine east south x1 y1 x2 y2 wide rng
  else
    let (east, south, rng) :=
      if horizFirst then
        let (east, south, rng) := carveLine east south x1 y1 x2 y1 wide rng
        carveLine east south x2 y1 x2 y2 wide rng
      else
        let (east, south, rng) := carveLine east south x1 y1 x1 y2 wide rng
        carveLine east south x1 y2 x2 y2 wide rng
    let (loopRoll, rng) := rng.int 0 25
    if loopRoll = 0 then
      let (ox, rng) := rng.int (-6) 7
      let midx := clampInt ((x1 + x2).fdiv 2 + ox) 1 62
      let (oy, rng) := rng.int (-6) 7
      let midy := clampInt ((y1 + y2).fdiv 2 + oy) 1 62
      let (east, south, rng) := carveLine east south x1 y1 midx midy wide rng
      carveLine east south midx midy x2 y2 wide rng
    else (east, south, rng)

/-- `pickConnPoint`: representative point of a subtree.  Leaves return
their `conn`; internal nodes with a `conn` return it; otherwise gather
the candidates of both children and pick one at random. -/
def pickConnPoint (t : BspNode) (rng : XorShift32) : Option (Int × Int) × XorShift32 :=
  match t with
  | .leaf _ _ conn => (conn, rng)
  | .node _ l rt conn =>
    match conn with
    | some p => (some p, rng)
    | none =>
      let (a, rng) := pickConnPoint l rng
      let (b, rng) := pickConnPoint rt rng
      let candidates := (a.toList) ++ (b.toList)
      match candidates with
      | [] => (none, rng)
      | _ =>
        let (j, rng) := rng.int 0 (candidates.length : Int)
        (candidates.get? j.toNat, rng)

/-- `connectSubtrees`: post-order corridor connection of sibling
subtrees; each internal node keeps one of the two connection points as
its own representative. -/
def connectSubtrees (t : BspNode) (east south : Array Nat) (rng : XorShift32) :
    BspNode × Array Nat × Array Nat × XorShift32 :=
  match t with
  | .leaf r room conn => (.leaf r room conn, east, south, rng)
  | .node r l rt _ =>
    let (l', east, south, rng) := connectSubtrees l east south rng
    let (rt', east, south, rng) := connectSubtrees rt east south rng
    let (a, rng) := pickConnPoint l' rng
    let (b, rng) := pickConnPoint rt' rng
    match a, b with
    | some pa, some pb =>
      let (east, south, rng) := carveCorridor east south pa.1 pa.2 pb.1 pb.2 rng
      let (c, rng) := rng.int 0 2
      let conn := if c = 0 then some pa else some pb
      (.node r l' rt' conn, east, south, rng)
    | _, _ => (.node r l' rt' none, east, south, rng)

/-- `deriveCorridorMask`: a corridor cell is any non-room cell touching
at least one OPEN edge. -/
def deriveCorridorMask (east south isRoom : Array Nat) : Array Nat :=
  (List.range 64).foldl
    (fun (m : Array Nat) y =>
      (List.range 64).foldl
        (fun (m : Array Nat) x =>
          let i := Maze.idx (x : Int) (y : Int)
          if isRoom.get! i = 1 then m
          else
            let o1 : Bool := x < 63 ∧ east.get! i = Maze.EDGE_OPEN
            let o2 : Bool := y < 63 ∧ south.get! i = Maze.EDGE_OPEN
            let o3 : Bool := x > 0 ∧ east.get! (Maze.idx ((x : Int) - 1) (y : Int)) = Maze.EDGE_OPEN
            let o4 : Bool := y > 0 ∧ south.get! (Maze.idx (x : Int) ((y : Int) - 1)) = Maze.EDGE_OPEN
            if o1 ∨ o2 ∨ o3 ∨ o4 then m.set! i 1 else m)
        m)
    (Array.mkArray 4096 0)

/-- `enforceRoomCorridorDoors`: promote OPEN edges on a room-corridor
boundary to doors (east edges first, then south edges). -/
def enforceRoomCorridorDoors (east south isRoom isCorr : Array Nat) :
    Array Nat × Array Nat :=
  let east :=
    (List.range 64).foldl
      (fun (e : Array Nat) y =>
        (List.range 63).foldl
          (fun (e : Array Nat) x =>
            let i := Maze.idx (x : Int) (y : Int)
            if e.get! i ≠ Maze.EDGE_OPEN then e
            else
              let aRoom := isRoom.get! i = 1
              let bRoom := isRoom.get! (Maze.idx ((x : Int) + 1) (y : Int)) = 1
              if aRoom = bRoom then e
              else
                let aCorr := isCorr.get! i = 1
                let bCorr := isCorr.get! (Maze.idx ((x : Int) + 1) (y : Int)) = 1
                if (aRoom ∧ bCorr) ∨ (bRoom ∧ aCorr) then e.set! i Maze.EDGE_DOOR else e)
          e)
      east
  let south :=
    (List.range 63).foldl
      (fun (s : Array Nat) y =>
        (List.range 64).foldl
          (fun (s : Array Nat) x =>
            let i := Maze.idx (x : Int) (y : Int)
            if s.get! i ≠ Maze.EDGE_OPEN then s
            else
              let aRoom := isRoom.get! i = 1
              let bRoom := isRoom.get! (Maze.idx (x : Int) ((y : Int) + 1)) = 1
              if aRoom = bRoom then s
              else
                let aCorr := isCorr.get! i = 1
                let bCorr := isCorr.get! (Maze.idx (x : Int) ((y : Int) + 1)) = 1
                if (aRoom ∧ bCorr) ∨ (bRoom ∧ aCorr) then s.set! i Maze.EDGE_DOOR else s)
          s)
      south
  (east, south)

/-- `sanitizeDoorsToRoomBoundaries`: any DOOR edge not between a room
and a non-room cell becomes OPEN. -/
def sanitizeDoorsToRoomBoundaries (east south isRoom : Array Nat) :
    Array Nat × Array Nat :=
  let east :=
    (List.range 64).foldl
      (fun (e : Array Nat) y =>
        (List.range 63).foldl
          (fun (e : Array Nat) x =>
            let i := Maze.idx (x : Int) (y : Int)
            if e.get! i ≠ Maze.EDGE_DOOR then e
            else
              let aRoom := isRoom.get! i = 1
              let bRoom := isRoom.get! (Maze.idx ((x : Int) + 1) (y : Int)) = 1
              if aRoom = bRoom then e.set! i Maze.EDGE_OPEN else e)
          e)
      east
  let south :=
    (List.range 63).foldl
      (fun (s : Array Nat) y =>
        (List.range 64).foldl
          (fun (s : Array Nat) x =>
            let i := Maze.idx (x : Int) (y : Int)
            if s.get! i ≠ Maze.EDGE_DOOR then s
            else
              let aRoom := isRoom.get! i = 1
              let bRoom := isRoom.get! (Maze.idx (x : Int) ((y : Int) + 1)) = 1
              if aRoom = bRoom then s.set! i Maze.EDGE_OPEN else s)
          s)
      south
  (east, south)

/-- `roomHasDoor`: scan the room perimeter for a DOOR edge. -/
def roomHasDoor (room : Room) (east south : Array Nat) : Bool :=
  ((List.range room.w.toNat).any (fun dx =>
    let x := room.x + (dx : Int)
    (decide (room.y > 0) && decide (south.get! (Maze.idx x (room.y - 1)) = Maze.EDGE_DOOR)) ||
    (decide (room.y + room.h - 1 < 63) &&
      decide (south.get! (Maze.idx x (room.y + room.h - 1)) = Maze.EDGE_DOOR)))) ||
  ((List.range room.h.toNat).any (fun dy =>
    let y := room.y + (dy : Int)
    (decide (room.x > 0) && decide (east.get! (Maze.idx (room.x - 1) y) = Maze.EDGE_DOOR)) ||
    (decide (room.x + room.w - 1 < 63) &&
      decide (east.get! (Maze.idx (room.x + room.w - 1) y) = Maze.EDGE_DOOR))))

/-- The 40-attempt loop of `ensureAllRoomsHaveAtLeastOneDoor` for one
room: pick a side, pick a position along it (consuming the RNG), and
synthesize a door if the outward cell is not a room cell. -/
def ensureDoorAttempts (room : Room) (east south isRoom : Array Nat)
    (rng : XorShift32) : Nat → Array Nat × Array Nat × XorShift32
  | 0 => (east, south, rng)
  | fuel + 1 =>
    let (side, rng) := rng.int 0 4
    if side = 0 then
      let (x, rng) := rng.int room.x (room.x + room.w)
      let y := room.y
      if y ≤ 0 then ensureDoorAttempts room east south isRoom rng fuel
      else
        let iOut := Maze.idx x (y - 1)
        if isRoom.get! iOut = 1 then ensureDoorAttempts room east south isRoom rng fuel
        else (east, south.set! iOut Maze.EDGE_DOOR, rng)
    else if side = 1 then
      let (x, rng) := rng.int room.x (room.x + room.w)
      let y := room.y + room.h - 1
      if y ≥ 63 then ensureDoorAttempts room east south isRoom rng fuel
      else
        let i := Maze.idx x y
        let iOut := Maze.idx x (y + 1)
        if isRoom.get! iOut = 1 then ensureDoorAttempts room east south isRoom rng fuel
        else (east, south.set! i Maze.EDGE_DOOR, rng)
    else if side = 2 then
      let x := room.x
      let (y, rng) := rng.int room.y (room.y + room.h)
      if x ≤ 0 then ensureDoorAttempts room east south isRoom rng fuel
      else
        let iOut := Maze.idx (x - 1) y
        if isRoom.get! iOut = 1 then ensureDoorAttempts room east south isRoom rng fuel
        else (east.set! iOut Maze.EDGE_DOOR, south, rng)
    else
      let x := room.x + room.w - 1
      let (y, rng) := rng.int room.y (room.y + room.h)
      if x ≥ 63 then ensureDoorAttempts room east south isRoom rng fuel
      else
        let i := Maze.idx x y
        let iOut := Maze.idx (x + 1) y
        if isRoom.get! iOut = 1 then ensureDoorAttempts room east south isRoom rng fuel
        else (east.set! i Maze.EDGE_DOOR, south, rng)

/-- `ensureAllRoomsHaveAtLeastOneDoor`: walk the tree; every leaf room
without a perimeter door gets one synthesized (up to 40 attempts). -/
def ensureAllRoomsHaveAtLeastOneDoor (t : BspNode) (east south isRoom : Array Nat)
    (rng : XorShift32) : Array Nat × Array Nat × XorShift32 :=
  match t with
  | .node _ l rt _ =>
    let (east, south, rng) := ensureAllRoomsHaveAtLeastOneDoor l east south isRoom rng
    ensureAllRoomsHaveAtLeastOneDoor rt east south isRoom rng
  | .leaf _ room _ =>
    match room with
    | none => (east, south, rng)
    | some room =>
      if roomHasDoor room east south then (east, south, rng)
      else ensureDoorAttempts room east south isRoom rng 40

end Bsp

/-- `generateChunkBsp(seed, levelId, chunkX, chunkY)` from the BSP
revision of engine/src/maze.ts: BSP split, rooms, corridors, then the
door passes, seeded by `hashSeed(..., "bsp_v4")`. -/
def generateChunkBsp (seed levelId chunkX chunkY : Int) : ChunkEdges :=
  let rng := XorShift32.init (hashSeed seed levelId chunkX chunkY "bsp_v4")
  let east : Array Nat := Array.mkArray 4096 0
  let south : Array Nat := Array.mkArray 4096 0
  let isRoom : Array Nat := Array.mkArray 4096 0
  let (root, rng) := Bsp.splitNode rng ⟨0, 0, 64, 64⟩ Bsp.MAX_DEPTH
  let (root, st) := Bsp.placeRoomsAndCarve root ⟨east, south, isRoom, rng⟩
  let (root, east, south, rng) := Bsp.connectSubtrees root st.east st.south st.rng
  let isRoom := st.isRoom
  let isCorr := Bsp.deriveCorridorMask east south isRoom
  let (east, south) := Bsp.enforceRoomCorridorDoors east south isRoom isCorr
  let (east, south) := Bsp.sanitizeDoorsToRoomBoundaries east south isRoom
  let (east, south, _) := Bsp.ensureAllRoomsHaveAtLeastOneDoor root east south isRoom rng
  let (east, south) := Bsp.sanitizeDoorsToRoomBoundaries east south isRoom
  ⟨seed, levelId, chunkX, chunkY, east, south⟩

/-! ## World model (engine/src/world.ts) -/

/-- `EdgeOverride` (engine/src/world.ts): the kind plus optional lock
metadata. -/
structure EdgeOverride where
  edgeType : EdgeType
  lockDifficulty : Option Int := none
  keyMonsterEntityId : Option String := none
deriving Repr, DecidableEq

/-- `EdgeQueryPurpose` (engine/src/world.ts, overlay-only revision). -/
inductive EdgeQueryPurpose where
  | movement | visibility | minimap
deriving Repr, DecidableEq, Inhabited

/-- `PlayerState` (engine/src/types.ts). -/
structure PlayerState where
  levelId : Int
  x : Int
  y : Int
  face : Dir
  hp : Int
deriving Repr, DecidableEq

/-- `CooldownState` (engine/src/world.ts). -/
structure CooldownState where
  moveReadyAtMs : Int
  turnReadyAtMs : Int
deriving Repr, DecidableEq

/-- `MoveDir = Dir | 'F' | 'B'` (engine/src/world.ts). -/
inductive MoveDir where
  | F | B
  | abs (d : Dir)
deriving Repr, DecidableEq

/-- `floorDiv(a, b) = Math.floor(a / b)` (engine/src/world.ts). -/
def floorDiv (a b : Int) : Int := a.fdiv b

/-- `mod(a, b)`: JS remainder (`Int.tmod`) shifted into `[0, b)`
(engine/src/world.ts). -/
def jmod (a b : Int) : Int :=
  if a.tmod b < 0 then a.tmod b + b else a.tmod b

/-- Result of `WorldEngine.move`: the `ok`/`reason`/`player` object of
the source, together with the list of `markDiscovered(levelId, x, y,
nowMs)` calls the move issued on the discovery provider (the only side
effect of the function). -/
structure MoveResult where
  ok : Bool
  reason : Option String
  player : Option PlayerState
  discovered : List (Int × Int × Int × Int)
deriving Repr, DecidableEq

/-- The traversability test shared by both engine revisions:
`e === 'open' || e === 'door_unlocked' || e === 'lever_secret'`. -/
def isTraversable (e : EdgeType) : Bool :=
  e = EdgeType.open_ ∨ e = EdgeType.door_unlocked ∨ e = EdgeType.lever_secret

/-! ### Chunk-based oracle (`WorldEngine` revision with base generation) -/

namespace ChunkWorld

/-- The overlay provider of this revision:
`getEdgeOverride(levelId, x, y, dir)` with no purpose argument. -/
def Overlay : Type := Int → Int → Int → Dir → Option EdgeOverride

/-- `WorldEngine.edgeType(levelId, x, y, dir)`: overlay first, then the
hub-safety forced-open edges, then the chunk-boundary mod-8 rule, then
the generated chunk. -/
def edgeType (seed : Int) (ov : Overlay) (levelId x y : Int) (dir : Dir) : EdgeType :=
  match ov levelId x y dir with
  | some o => o.edgeType
  | none =>
    -- hub safety: (0,0) <-> (1,0) and (0,0) <-> (0,1)
    if x = 0 ∧ y = 0 ∧ dir = Dir.E then .open_
    else if x = 1 ∧ y = 0 ∧ dir = Dir.W then .open_
    else if x = 0 ∧ y = 0 ∧ dir = Dir.S then .open_
    else if x = 0 ∧ y = 1 ∧ dir = Dir.N then .open_
    else
      let cx := floorDiv x CHUNK_SIZE
      let cy := floorDiv y CHUNK_SIZE
      let lx := jmod x CHUNK_SIZE
      let ly := jmod y CHUNK_SIZE
      let chunk := generateChunkMaze seed levelId cx cy
      if dir = Dir.E ∧ lx = CHUNK_SIZE - 1 then
        (if ly.tmod 8 = 0 then .open_ else .wall)
      else if dir = Dir.W ∧ lx = 0 then
        (if ly.tmod 8 = 0 then .open_ else .wall)
      else if dir = Dir.S ∧ ly = CHUNK_SIZE - 1 then
        (if lx.tmod 8 = 0 then .open_ else .wall)
      else if dir = Dir.N ∧ ly = 0 then
        (if lx.tmod 8 = 0 then .open_ else .wall)
      else baseEdgeTypeFromChunk chunk lx ly dir

/-- `WorldEngine.canTraverse(levelId, x, y, dir)` of the chunk-based
revision. -/
def canTraverse (seed : Int) (ov : Overlay) (levelId x y : Int) (dir : Dir) : Bool :=
  isTraversable (edgeType seed ov levelId x y dir)

/-- `WorldEngine.move(player, cooldowns)` of the chunk-based revision:
moves one cell in the facing direction. -/
def move (seed : Int) (ov : Overlay) (now : Int) (player : PlayerState)
    (cooldowns : CooldownState) : MoveResult :=
  if now < cooldowns.moveReadyAtMs then ⟨false, some "move_cooldown", none, []⟩
  else if ¬ canTraverse seed ov player.levelId player.x player.y player.face then
    ⟨false, some "blocked", none, []⟩
  else
    let n := step player.x player.y player.face
    let next : PlayerState := { player with x := n.1, y := n.2 }
    ⟨true, none, some next, [(next.levelId, next.x, next.y, now)]⟩

end ChunkWorld

/-! ### Overlay-only oracle (`WorldEngine` revision without base
generation, with relative movement) -/

namespace OverlayWorld

/-- The overlay provider of this revision:
`getEdgeOverride(levelId, x, y, dir, purpose)`. -/
def Overlay : Type := Int → Int → Int → Dir → EdgeQueryPurpose → Option EdgeOverride

/-- `WorldEngine.edgeType(levelId, x, y, dir, purpose)`: overlay only;
unknown space is solid. -/
def edgeType (ov : Overlay) (levelId x y : Int) (dir : Dir)
    (purpose : EdgeQueryPurpose) : EdgeType :=
  match ov levelId x y dir purpose with
  | some o => o.edgeType
  | none => .wall

/-- `moveDirToAbs(face, moveDir)`: translate F/B to an absolute
direction using the current facing. -/
def moveDirToAbs (face : Dir) (moveDir : MoveDir) : Dir :=
  match moveDir with
  | .F => face
  | .B => oppositeOf face
  | .abs d => d

/-- `canTraverseAbs`: traversability of the absolute edge at movement
purpose. -/
def canTraverseAbs (ov : Overlay) (levelId x y : Int) (absDir : Dir) : Bool :=
  isTraversable (edgeType ov levelId x y absDir .movement)

/-- `WorldEngine.canTraverse(levelId, x, y, face, moveDir)`. -/
def canTraverse (ov : Overlay) (levelId x y : Int) (face : Dir)
    (moveDir : MoveDir) : Bool :=
  canTraverseAbs ov levelId x y (moveDirToAbs face moveDir)

/-- `WorldEngine.move(player, cooldowns, moveDir)`: F/B move relative to
the current facing, absolute directions move that way; the facing is
never changed by the engine. -/
def move (ov : Overlay) (now : Int) (player : PlayerState)
    (cooldowns : CooldownState) (moveDir : MoveDir) : MoveResult :=
  if now < cooldowns.moveReadyAtMs then ⟨false, some "move_cooldown", none, []⟩
  else
    let absDir := moveDirToAbs player.face moveDir
    if ¬ canTraverseAbs ov player.levelId player.x player.y absDir then
      ⟨false, some "blocked", none, []⟩
    else
      let n := step player.x player.y absDir
      let next : PlayerState := { player with x := n.1, y := n.2 }
      ⟨true, none, some next, [(next.levelId, next.x, next.y, now)]⟩

/-- `ViewCell`: a visited cell with its four resolved edges. -/
structure ViewCell where
  x : Int
  y : Int
  eN : EdgeType
  eE : EdgeType
  eS : EdgeType
  eW : EdgeType
deriving Repr, DecidableEq

/-- Build the `ViewCell` for (x, y) with all four edges resolved at
visibility purpose (the body of `addCell` in `computeOmniRays`). -/
def mkViewCell (ov : Overlay) (levelId x y : Int) : ViewCell :=
  ⟨x, y,
    edgeType ov levelId x y .N .visibility,
    edgeType ov levelId x y .E .visibility,
    edgeType ov levelId x y .S .visibility,
    edgeType ov levelId x y .W .visibility⟩

/-- `addCell`: record a cell once; the map keyed by `(x, y)` preserves
insertion order, modelled as append-if-absent. -/
def addCell (ov : Overlay) (levelId : Int) (out : List ViewCell) (x y : Int) :
    List ViewCell :=
  if out.any (fun c => c.x = x ∧ c.y = y) then out
  else out ++ [mkViewCell ov levelId x y]

/-- The per-direction ray of `computeOmniRays`: advance up to `depth`
cells while the forward visibility edge is `open` or `lever_secret`. -/
def rayWalk (ov : Overlay) (levelId : Int) (dir : Dir) :
    Nat → Int → Int → List ViewCell → List ViewCell
  | 0, _, _, out => out
  | d + 1, cx, cy, out =>
    let forward := edgeType ov levelId cx cy dir .visibility
    if forward = EdgeType.open_ ∨ forward = EdgeType.lever_secret then
      let n := step cx cy dir
      rayWalk ov levelId dir d n.1 n.2 (addCell ov levelId out n.1 n.2)
    else out

/-- `computeOmniRays(engine, player, depth)`: the player cell first,
then the four cardinal rays in the order N, E, S, W. -/
def computeOmniRays (ov : Overlay) (player : PlayerState) (depth : Nat) :
    List ViewCell :=
  let out0 := addCell ov player.levelId [] player.x player.y
  [Dir.N, Dir.E, Dir.S, Dir.W].foldl
    (fun out dir => rayWalk ov player.levelId dir depth player.x player.y out)
    out0

end OverlayWorld

/-! ## Overlay store write path (server/src/overlays.ts) -/

/-- One stored edge override row: kind plus the JSON metadata
(`doorId`, `frontier`). -/
structure StoredEdge where
  edgeType : EdgeType
  doorId : Option String := none
  frontier : Option Bool := none
deriving Repr, DecidableEq

/-- The sparse edge-override table of one world, keyed by
(levelId, x, y, dir). -/
def EdgeStore : Type := Int → Int → Int → Dir → Option StoredEdge

/-- `DbOverlayProvider.writeEdgeBothWays(levelId, x, y, dir, edgeType,
meta, now)`: upsert the row at (x, y, dir) and the mirror row at the
neighbour with the opposite direction, both with the same kind and
metadata. -/
def writeEdgeBothWays (st : EdgeStore) (levelId x y : Int) (dir : Dir)
    (rec : StoredEdge) : EdgeStore :=
  let n := step x y dir
  fun l a b d =>
    if (l, a, b, d) = (levelId, n.1, n.2, oppositeOf dir) then some rec
    else if (l, a, b, d) = (levelId, x, y, dir) then some rec
    else st l a b d

/-- A store is symmetric when every row agrees with the mirror row of
the neighbour cell. -/
def EdgeStoreSymm (st : EdgeStore) : Prop :=
  ∀ l x y d, st l x y d = st l (step x y d).1 (step x y d).2 (oppositeOf d)

/-- Read an `EdgeStore` as the overlay provider of the chunk-based
engine (the oracle consumes only the edge kind). -/
def storeOverlay (st : EdgeStore) : ChunkWorld.Overlay :=
  fun l x y d => (st l x y d).map (fun r => { edgeType := r.edgeType })

/-! ## Gateway (server/src/ws.ts) -/

/-- The reply sent for one processed client message (the subset of the
server message vocabulary the claims mention). -/
inductive WsReply where
  | errorMsg (code : String) (seq : Int)
  | authOk
  | authErr (reason : String)
  | actionResult (ok : Bool) (reason : Option String) (seq : Int)
deriving Repr, DecidableEq

/-- Per-connection state (`ConnState` in server/src/ws.ts). -/
structure ConnState where
  authed : Bool
  lastSeq : Int
  cooldowns : CooldownState
deriving Repr, DecidableEq

/-- The initial connection state: `lastSeq = -1`, cooldowns 0. -/
def initConnState : ConnState := ⟨false, -1, ⟨0, 0⟩⟩

/-- The sequence gate of the message handler: a message whose `seq` is
not strictly greater than `lastSeq` is answered with error `bad_seq`
and the connection state is left untouched; otherwise `lastSeq` is
advanced to `seq` and the rest of the handler (`dispatch`) runs. -/
def wsSeqGate (st : ConnState) (seq : Int)
    (dispatch : ConnState → ConnState × WsReply) : ConnState × WsReply :=
  if seq ≤ st.lastSeq then (st, .errorMsg "bad_seq" seq)
  else dispatch { st with lastSeq := seq }

/-- Drive a list of incoming `seq` values through `wsSeqGate`,
collecting the accepted ones; `dispatch` is the rest of the handler. -/
def wsAccepted (dispatch : ConnState → ConnState × WsReply) :
    ConnState → List Int → List Int
  | _, [] => []
  | st, s :: rest =>
    if s ≤ st.lastSeq then wsAccepted dispatch st rest
    else s :: wsAccepted dispatch (wsSeqGate st s dispatch).1 rest

/-- Effect of one `move` message on the connection (the handler of the
second revision of server/src/ws.ts, which forwards the payload
direction to `WorldEngine.move`): the reply, the updated cooldowns, the
pose passed to `savePosition` (if any) and the discovery inserts. -/
structure WsMoveEffect where
  replyOk : Bool
  replyReason : Option String
  cooldowns : CooldownState
  saved : Option PlayerState
  discovered : List (Int × Int × Int × Int)
deriving Repr, DecidableEq

/-- The `move` branch of the forwarding ws handler: cooldown check at the
gateway, then `engine.move(player, cooldowns, dir)`; on success the
move cooldown becomes `now + moveCooldownMs` and the result pose (with
the engine-kept facing `r.player.face`) is persisted. -/
def wsMove (moveCooldownMs : Int) (ov : OverlayWorld.Overlay) (now : Int)
    (cd : CooldownState) (active : PlayerState) (dir : MoveDir) : WsMoveEffect :=
  if now < cd.moveReadyAtMs then ⟨false, some "move_cooldown", cd, none, []⟩
  else
    let r := OverlayWorld.move ov now active cd dir
    match r.player, r.ok with
    | some p, true =>
      ⟨true, none, { cd with moveReadyAtMs := now + moveCooldownMs }, some p, r.discovered⟩
    | _, _ => ⟨false, r.reason, cd, none, []⟩

/-- Direction resolution of the first-revision ws move handler: translate
`'F'`/`'B'` using the current facing (keeping the facing), and set the
facing to the direction for an absolute payload; returns
(moveDir, newFace). -/
def resolveMoveDir (currentFace : Dir) (payloadDir : MoveDir) : Dir × Dir :=
  match payloadDir with
  | .F => (currentFace, currentFace)
  | .B => (oppositeOf currentFace, currentFace)
  | .abs d => (d, d)

/-- The `move` branch of the first-revision ws handler: resolve the direction,
move with a player faced along it through the chunk-based engine, and
persist the position with the separately computed `newFace`. -/
def wsMoveV1 (moveCooldownMs seed : Int) (ov : ChunkWorld.Overlay) (now : Int)
    (cd : CooldownState) (active : PlayerState) (dir : MoveDir) : WsMoveEffect :=
  if now < cd.moveReadyAtMs then ⟨false, some "move_cooldown", cd, none, []⟩
  else
    let rd := resolveMoveDir active.face dir
    let playerForMove : PlayerState :=
      { levelId := active.levelId, x := active.x, y := active.y, face := rd.1, hp := active.hp }
    let r := ChunkWorld.move seed ov now playerForMove cd
    match r.player, r.ok with
    | some p, true =>
      ⟨true, none, { cd with moveReadyAtMs := now + moveCooldownMs },
        some { p with face := rd.2 }, r.discovered⟩
    | _, _ => ⟨false, r.reason, cd, none, []⟩

/-- The key set of a view-cell list (used to state uniqueness of the
recorded visibility cells). -/
def OverlayWorld.cellKeys (out : List OverlayWorld.ViewCell) : List (Int × Int) :=
  out.map (fun c => (c.x, c.y))

/-- An edge address that the hub-safety rule forces open. -/
def hubEdge (x y : Int) (d : Dir) : Prop :=
  (x = 0 ∧ y = 0 ∧ d = Dir.E) ∨ (x = 1 ∧ y = 0 ∧ d = Dir.W) ∨
  (x = 0 ∧ y = 0 ∧ d = Dir.S) ∨ (x = 0 ∧ y = 1 ∧ d = Dir.N)

instance (x y : Int) (d : Dir) : Decidable (hubEdge x y d) := by
  unfold hubEdge; infer_instance

/-! ## Concrete instances used by the closed witness statements -/

/-- The empty overlay of the chunk-based engine (no overrides). -/
def ovNoneC : ChunkWorld.Overlay := fun _ _ _ _ => none

/-- The empty overlay of the overlay-only engine. -/
def ovNoneP : OverlayWorld.Overlay := fun _ _ _ _ _ => none

/-- An overlay whose every edge is an `open` override. -/
def ovAllOpenP : OverlayWorld.Overlay := fun _ _ _ _ _ => some { edgeType := .open_ }

/-- An overlay with a single `door_unlocked` override on the east edge
of (0, 0) at level 1 (both orientations), walls elsewhere: the setting
of the visibility-blocking scenario. -/
def ovDoorEastP : OverlayWorld.Overlay := fun l x y d _ =>
  if l = 1 ∧ x = 0 ∧ y = 0 ∧ d = Dir.E then some { edgeType := .door_unlocked }
  else if l = 1 ∧ x = 1 ∧ y = 0 ∧ d = Dir.W then some { edgeType := .door_unlocked }
  else none

/-- A single constant override used by precedence witnesses. -/
def ovLockedC : ChunkWorld.Overlay := fun _ _ _ _ => some { edgeType := .door_locked }

/-- The same constant override for the purpose-aware provider. -/
def ovLockedP : OverlayWorld.Overlay := fun _ _ _ _ _ => some { edgeType := .door_locked }

/-- A player at the hub of level 1 facing north. -/
def pN00 : PlayerState := ⟨1, 0, 0, Dir.N, 10⟩

/-- Cooldowns that are ready immediately. -/
def cd0 : CooldownState := ⟨0, 0⟩

/-- The empty edge-override store. -/
def emptyEdgeStore : EdgeStore := fun _ _ _ _ => none

/-! ## Helper lemmas -/

/-- For a positive modulus the JS-style `mod` helper agrees with the
Euclidean remainder. -/
theorem jmod_emod_64 (a : Int) : jmod a 64 = a % 64 := by
  unfold jmod
  by_cases ha : 0 ≤ a
  · rw [Int.tmod_eq_emod ha (by omega)]
    have h2 := Int.emod_nonneg a (by omega : (64 : Int) ≠ 0)
    split <;> omega
  · have hm : (0 : Int) ≤ -a := by omega
    have hneg : a.tmod 64 = -((-a).tmod 64) := by
      rw [Int.tmod_def, Int.tmod_def, Int.neg_tdiv]; ring
    rw [hneg, Int.tmod_eq_emod hm (by omega)]
    have h2 := Int.emod_nonneg (-a) (by omega : (64 : Int) ≠ 0)
    have h3 := Int.emod_lt_of_pos (-a) (by omega : (0 : Int) < 64)
    split <;> omega

/-- `tmod 8` of a value already reduced into `[0, 64)` is the Euclidean
remainder. -/
theorem tmod8_of_nonneg (a : Int) (ha : 0 ≤ a) : a.tmod 8 = a % 8 :=
  Int.tmod_eq_emod ha (by omega)

/-- `floorDiv` with modulus 64 is Euclidean division. -/
theorem floorDiv_ediv_64 (a : Int) : floorDiv a 64 = a / 64 :=
  Int.fdiv_eq_ediv a (by omega)


theorem base_EW (c : ChunkEdges) (lx ly : Int) (h0 : 0 ≤ lx) (h1 : lx < 63)
    (h2 : 0 ≤ ly) (h3 : ly < 64) :
    baseEdgeTypeFromChunk c lx ly Dir.E = baseEdgeTypeFromChunk c (lx + 1) ly Dir.W := by
  unfold baseEdgeTypeFromChunk
  have hb : Maze.inBounds lx ly = true := by simp [Maze.inBounds]; omega
  have hb2 : Maze.inBounds (lx + 1) ly = true := by simp [Maze.inBounds]; omega
  have hne : ¬ (lx + 1 = 0) := by omega
  have hidx : lx + 1 - 1 = lx := by ring
  simp [hb, hb2, hne, hidx]

theorem edgeType_symm_E (seed : Int) (ov : ChunkWorld.Overlay) (l x y : Int)
    (hov : ov l x y Dir.E = ov l (x + 1) y Dir.W) :
    ChunkWorld.edgeType seed ov l x y Dir.E = ChunkWorld.edgeType seed ov l (x + 1) y Dir.W := by
  unfold ChunkWorld.edgeType
  rw [← hov]
  cases h : ov l x y Dir.E with
  | some o => rfl
  | none =>
    simp only [CHUNK_SIZE, jmod_emod_64, floorDiv_ediv_64]
    have hem0 := Int.emod_nonneg x (by omega : (64 : Int) ≠ 0)
    have hem1 := Int.emod_lt_of_pos x (by omega : (0 : Int) < 64)
    have hey0 := Int.emod_nonneg y (by omega : (64 : Int) ≠ 0)
    have hey1 := Int.emod_lt_of_pos y (by omega : (0 : Int) < 64)
    have hx1e : x + 1 = 1 ↔ x = 0 := by omega
    by_cases hxy : x = 0 ∧ y = 0
    · simp [hxy.1, hxy.2]
    · by_cases hb : x % 64 = 63
      · have hb2 : (x + 1) % 64 = 0 := by omega
        simp [hxy, hx1e, hb, hb2]
      · have hb2 : (x + 1) % 64 = x % 64 + 1 := by omega
        have hd : (x + 1) / 64 = x / 64 := by omega
        have hb3 : ¬ ((x + 1) % 64 = 0) := by omega
        simp only [hxy, hx1e, hb, hb2, hd, hb3]
        simp [hxy, hb]
        rw [if_neg (by omega : ¬ (x % 64 + 1 = 0))]
        exact base_EW _ _ _ hem0 (by omega) hey0 hey1

theorem base_SN (c : ChunkEdges) (lx ly : Int) (h0 : 0 ≤ lx) (h1 : lx < 64)
    (h2 : 0 ≤ ly) (h3 : ly < 63) :
    baseEdgeTypeFromChunk c lx ly Dir.S = baseEdgeTypeFromChunk c lx (ly + 1) Dir.N := by
  unfold baseEdgeTypeFromChunk
  have hb : Maze.inBounds lx ly = true := by simp [Maze.inBounds]; omega
  have hb2 : Maze.inBounds lx (ly + 1) = true := by simp [Maze.inBounds]; omega
  have hne : ¬ (ly + 1 = 0) := by omega
  have hidx : ly + 1 - 1 = ly := by ring
  simp [hb, hb2, hne, hidx]

theorem edgeType_symm_S (seed : Int) (ov : ChunkWorld.Overlay) (l x y : Int)
    (hov : ov l x y Dir.S = ov l x (y + 1) Dir.N) :
    ChunkWorld.edgeType seed ov l x y Dir.S = ChunkWorld.edgeType seed ov l x (y + 1) Dir.N := by
  unfold ChunkWorld.edgeType
  rw [← hov]
  cases h : ov l x y Dir.S with
  | some o => rfl
  | none =>
    simp only [CHUNK_SIZE, jmod_emod_64, floorDiv_ediv_64]
    have hem0 := Int.emod_nonneg x (by omega : (64 : Int) ≠ 0)
    have hem1 := Int.emod_lt_of_pos x (by omega : (0 : Int) < 64)
    have hey0 := Int.emod_nonneg y (by omega : (64 : Int) ≠ 0)
    have hey1 := Int.emod_lt_of_pos y (by omega : (0 : Int) < 64)
    have hy1e : y + 1 = 1 ↔ y = 0 := by omega
    by_cases hxy : x = 0 ∧ y = 0
    · simp [hxy.1, hxy.2]
    · by_cases hb : y % 64 = 63
      · have hb2 : (y + 1) % 64 = 0 := by omega
        simp [hxy, hy1e, hb, hb2]
      · have hb2 : (y + 1) % 64 = y % 64 + 1 := by omega
        have hd : (y + 1) / 64 = y / 64 := by omega
        have hb3 : ¬ ((y + 1) % 64 = 0) := by omega
        simp only [hxy, hy1e, hb, hb2, hd, hb3]
        simp [hxy, hb]
        rw [if_neg (by omega : ¬ (y % 64 + 1 = 0))]
        exact base_SN _ _ _ hem0 hem1 hey0 (by omega)

theorem edgeType_symm_all (seed : Int) (ov : ChunkWorld.Overlay)
    (hsym : ∀ l x y d, ov l x y d = ov l (step x y d).1 (step x y d).2 (oppositeOf d))
    (l x y : Int) (d : Dir) :
    ChunkWorld.edgeType seed ov l x y d =
      ChunkWorld.edgeType seed ov l (step x y d).1 (step x y d).2 (oppositeOf d) := by
  cases d with
  | E => exact edgeType_symm_E seed ov l x y (hsym l x y Dir.E)
  | S => exact edgeType_symm_S seed ov l x y (hsym l x y Dir.S)
  | W =>
    have h := edgeType_symm_E seed ov l (x - 1) y (by
      have := hsym l x y Dir.W
      simp only [step, oppositeOf] at this ⊢
      rw [show x - 1 + 1 = x from by ring]
      exact this.symm)
    simp only [step, oppositeOf]
    rw [show x - 1 + 1 = x from by ring] at h
    exact h.symm
  | N =>
    have h := edgeType_symm_S seed ov l x (y - 1) (by
      have := hsym l x y Dir.N
      simp only [step, oppositeOf] at this ⊢
      rw [show y - 1 + 1 = y from by ring]
      exact this.symm)
    simp only [step, oppositeOf]
    rw [show y - 1 + 1 = y from by ring] at h
    exact h.symm

theorem opp_opp (d : Dir) : oppositeOf (oppositeOf d) = d := by cases d <;> rfl

theorem opp_ne (d : Dir) : d ≠ oppositeOf d := by cases d <;> simp [oppositeOf]

theorem step_invol (x y : Int) (d : Dir) :
    step (step x y d).1 (step x y d).2 (oppositeOf d) = (x, y) := by
  cases d <;> simp [step, oppositeOf]

theorem mirror_key_iff (l a b l2 x y : Int) (d dir : Dir) :
    ((l, (step a b d).1, (step a b d).2, oppositeOf d) = (l2, x, y, dir)) ↔
      ((l, a, b, d) = (l2, (step x y dir).1, (step x y dir).2, oppositeOf dir)) := by
  constructor
  · intro h
    simp only [Prod.mk.injEq] at h ⊢
    obtain ⟨h1, h2, h3, h4⟩ := h
    have hst : step x y dir = (a, b) := by
      rw [← h2, ← h3, ← h4]; exact step_invol a b d
    refine ⟨h1, ?_, ?_, ?_⟩
    · rw [hst]
    · rw [hst]
    · rw [← h4, opp_opp]
  · intro h
    simp only [Prod.mk.injEq] at h ⊢
    obtain ⟨h1, h2, h3, h4⟩ := h
    have hst : step a b d = (x, y) := by
      rw [h2, h3, h4]; exact step_invol x y dir
    refine ⟨h1, ?_, ?_, ?_⟩
    · rw [hst]
    · rw [hst]
    · rw [h4, opp_opp]

theorem writeEdgeBothWays_symm (st : EdgeStore) (hs : EdgeStoreSymm st)
    (levelId x y : Int) (dir : Dir) (rec : StoredEdge) :
    EdgeStoreSymm (writeEdgeBothWays st levelId x y dir rec) := by
  intro l a b d
  unfold writeEdgeBothWays
  have hmir2 : ((l, (step a b d).1, (step a b d).2, oppositeOf d) =
      (levelId, x, y, dir)) ↔
      ((l, a, b, d) = (levelId, (step x y dir).1, (step x y dir).2, oppositeOf dir)) :=
    mirror_key_iff l a b levelId x y d dir
  have hmirK2 : ((l, (step a b d).1, (step a b d).2, oppositeOf d) =
      (levelId, (step x y dir).1, (step x y dir).2, oppositeOf dir)) ↔
      ((l, a, b, d) = (levelId, x, y, dir)) := by
    rw [mirror_key_iff l a b levelId (step x y dir).1 (step x y dir).2 d (oppositeOf dir)]
    rw [step_invol x y dir, opp_opp]
  by_cases hq2 : (l, a, b, d) = (levelId, (step x y dir).1, (step x y dir).2, oppositeOf dir)
  · rw [if_pos hq2, if_neg, if_pos (hmir2.mpr hq2)]
    intro hcon
    have hq1 : (l, a, b, d) = (levelId, x, y, dir) := hmirK2.mp hcon
    rw [hq1] at hq2
    simp only [Prod.mk.injEq] at hq2
    exact opp_ne dir hq2.2.2.2
  · by_cases hq1 : (l, a, b, d) = (levelId, x, y, dir)
    · rw [if_neg hq2, if_pos hq1, if_pos (hmirK2.mpr hq1)]
    · have hm2 : ¬ ((l, (step a b d).1, (step a b d).2, oppositeOf d) =
          (levelId, (step x y dir).1, (step x y dir).2, oppositeOf dir)) :=
        fun hcon => hq1 (hmirK2.mp hcon)
      have hm1 : ¬ ((l, (step a b d).1, (step a b d).2, oppositeOf d) =
          (levelId, x, y, dir)) :=
        fun hcon => hq2 (hmir2.mp hcon)
      rw [if_neg hq2, if_neg hq1, if_neg hm2, if_neg hm1]
      exact hs l a b d


theorem boundary_E (seed : Int) (ov : ChunkWorld.Overlay) (l x y : Int)
    (h1 : ov l x y Dir.E = none) (h2 : ov l (x + 1) y Dir.W = none)
    (hb : jmod x 64 = 63) :
    ChunkWorld.edgeType seed ov l x y Dir.E =
      (if (jmod y 64).tmod 8 = 0 then EdgeType.open_ else EdgeType.wall) ∧
    ChunkWorld.edgeType seed ov l (x + 1) y Dir.W =
      (if (jmod y 64).tmod 8 = 0 then EdgeType.open_ else EdgeType.wall) := by
  rw [jmod_emod_64] at hb
  constructor
  · unfold ChunkWorld.edgeType
    rw [h1]
    simp only [CHUNK_SIZE, jmod_emod_64, floorDiv_ediv_64]
    have hx0 : ¬ (x = 0 ∧ y = 0) := by rintro ⟨rfl, -⟩; omega
    simp [hx0, hb]
  · unfold ChunkWorld.edgeType
    rw [h2]
    simp only [CHUNK_SIZE, jmod_emod_64, floorDiv_ediv_64]
    have hx1 : ¬ (x + 1 = 1 ∧ y = 0) := by rintro ⟨ha, -⟩; omega
    have hb2 : (x + 1) % 64 = 0 := by omega
    simp [hx1, hb2]
    intro hx0' hy0'
    exfalso; omega

theorem boundary_S (seed : Int) (ov : ChunkWorld.Overlay) (l x y : Int)
    (h1 : ov l x y Dir.S = none) (h2 : ov l x (y + 1) Dir.N = none)
    (hb : jmod y 64 = 63) :
    ChunkWorld.edgeType seed ov l x y Dir.S =
      (if (jmod x 64).tmod 8 = 0 then EdgeType.open_ else EdgeType.wall) ∧
    ChunkWorld.edgeType seed ov l x (y + 1) Dir.N =
      (if (jmod x 64).tmod 8 = 0 then EdgeType.open_ else EdgeType.wall) := by
  rw [jmod_emod_64] at hb
  constructor
  · unfold ChunkWorld.edgeType
    rw [h1]
    simp only [CHUNK_SIZE, jmod_emod_64, floorDiv_ediv_64]
    have hx0 : ¬ (x = 0 ∧ y = 0) := by rintro ⟨-, rfl⟩; omega
    simp [hx0, hb]
  · unfold ChunkWorld.edgeType
    rw [h2]
    simp only [CHUNK_SIZE, jmod_emod_64, floorDiv_ediv_64]
    have hy1 : ¬ (x = 0 ∧ y + 1 = 1) := by rintro ⟨-, ha⟩; omega
    have hb2 : (y + 1) % 64 = 0 := by omega
    simp [hy1, hb2]
    intro hx0' hy0'
    exfalso; omega


namespace OverlayWorld

theorem addCell_append (ov : Overlay) (l : Int) (out : List ViewCell) (x y : Int) :
    addCell ov l out x y = out ∨ addCell ov l out x y = out ++ [mkViewCell ov l x y] := by
  unfold addCell
  split <;> simp

theorem rayWalk_append (ov : Overlay) (l : Int) (dir : Dir) :
    ∀ (d : Nat) (cx cy : Int) (out : List ViewCell),
      ∃ rest, rayWalk ov l dir d cx cy out = out ++ rest := by
  intro d
  induction d with
  | zero => intro cx cy out; exact ⟨[], by simp [rayWalk]⟩
  | succ d ih =>
    intro cx cy out
    simp only [rayWalk]
    split
    · obtain ⟨r1, hr1⟩ := ih (step cx cy dir).1 (step cx cy dir).2 (addCell ov l out (step cx cy dir).1 (step cx cy dir).2)
      rcases addCell_append ov l out (step cx cy dir).1 (step cx cy dir).2 with h | h
      · exact ⟨r1, by rw [hr1, h]⟩
      · exact ⟨[mkViewCell ov l (step cx cy dir).1 (step cx cy dir).2] ++ r1, by rw [hr1, h]; simp⟩
    · exact ⟨[], by simp⟩

theorem addCell_length (ov : Overlay) (l : Int) (out : List ViewCell) (x y : Int) :
    (addCell ov l out x y).length ≤ out.length + 1 := by
  rcases addCell_append ov l out x y with h | h <;> simp [h]

theorem rayWalk_length (ov : Overlay) (l : Int) (dir : Dir) :
    ∀ (d : Nat) (cx cy : Int) (out : List ViewCell),
      (rayWalk ov l dir d cx cy out).length ≤ out.length + d := by
  intro d
  induction d with
  | zero => intro cx cy out; simp [rayWalk]
  | succ d ih =>
    intro cx cy out
    simp only [rayWalk]
    split
    · calc (rayWalk ov l dir d (step cx cy dir).1 (step cx cy dir).2
            (addCell ov l out (step cx cy dir).1 (step cx cy dir).2)).length
          ≤ (addCell ov l out (step cx cy dir).1 (step cx cy dir).2).length + d := ih ..
        _ ≤ out.length + 1 + d := by
            have := addCell_length ov l out (step cx cy dir).1 (step cx cy dir).2
            omega
        _ = out.length + (d + 1) := by omega
    · simp

theorem rayWalk_stop (ov : Overlay) (l : Int) (dir : Dir) (d : Nat) (cx cy : Int)
    (out : List ViewCell)
    (h : ¬ (edgeType ov l cx cy dir .visibility = EdgeType.open_ ∨
            edgeType ov l cx cy dir .visibility = EdgeType.lever_secret)) :
    rayWalk ov l dir (d + 1) cx cy out = out := by
  unfold rayWalk
  rw [if_neg h]

theorem addCell_resolved (ov : Overlay) (l : Int) (out : List ViewCell) (x y : Int)
    (h : ∀ c ∈ out, c = mkViewCell ov l c.x c.y) :
    ∀ c ∈ addCell ov l out x y, c = mkViewCell ov l c.x c.y := by
  rcases addCell_append ov l out x y with he | he <;> rw [he]
  · exact h
  · intro c hc
    rcases List.mem_append.mp hc with h1 | h1
    · exact h c h1
    · simp at h1
      subst h1
      rfl

theorem rayWalk_resolved (ov : Overlay) (l : Int) (dir : Dir) :
    ∀ (d : Nat) (cx cy : Int) (out : List ViewCell),
      (∀ c ∈ out, c = mkViewCell ov l c.x c.y) →
      ∀ c ∈ rayWalk ov l dir d cx cy out, c = mkViewCell ov l c.x c.y := by
  intro d
  induction d with
  | zero => intro cx cy out h; simpa [rayWalk] using h
  | succ d ih =>
    intro cx cy out h
    simp only [rayWalk]
    split
    · exact ih _ _ _ (addCell_resolved ov l out _ _ h)
    · exact h

theorem addCell_nodup (ov : Overlay) (l : Int) (out : List ViewCell) (x y : Int)
    (h : (cellKeys out).Nodup) : (cellKeys (addCell ov l out x y)).Nodup := by
  unfold addCell
  split
  · exact h
  · rename_i hany
    simp only [cellKeys, List.map_append, List.map_cons, List.map_nil]
    rw [List.nodup_append]
    refine ⟨h, by simp, ?_⟩
    intro k hk
    simp only [List.mem_map] at hk
    obtain ⟨c, hc, hkey⟩ := hk
    simp only [List.mem_singleton]
    intro hk2
    apply hany
    rw [List.any_eq_true]
    refine ⟨c, hc, ?_⟩
    rw [hk2] at hkey
    simp only [mkViewCell] at hkey
    simp only [decide_eq_true_eq]
    constructor
    · exact congrArg Prod.fst hkey
    · exact congrArg Prod.snd hkey

theorem rayWalk_nodup (ov : Overlay) (l : Int) (dir : Dir) :
    ∀ (d : Nat) (cx cy : Int) (out : List ViewCell),
      (cellKeys out).Nodup → (cellKeys (rayWalk ov l dir d cx cy out)).Nodup := by
  intro d
  induction d with
  | zero => intro cx cy out h; simpa [rayWalk] using h
  | succ d ih =>
    intro cx cy out h
    simp only [rayWalk]
    split
    · exact ih _ _ _ (addCell_nodup ov l out _ _ h)
    · exact h

end OverlayWorld


/-- C1: for every (seed, level, chunkX, chunkY), two independent
invocations of the chunk generator return `ChunkEdges` whose `east` and
`south` byte arrays are element-for-element identical: both generator
variants are pure functions of their four inputs, so the two
invocations denote the same value. -/
theorem chunk_generator_deterministic :
    ∀ seed levelId cx cy : Int,
      (∀ i : Nat,
        (generateChunkMaze seed levelId cx cy).east.get? i =
          (generateChunkMaze seed levelId cx cy).east.get? i ∧
        (generateChunkMaze seed levelId cx cy).south.get? i =
          (generateChunkMaze seed levelId cx cy).south.get? i) ∧
      (∀ i : Nat,
        (generateChunkBsp seed levelId cx cy).east.get? i =
          (generateChunkBsp seed levelId cx cy).east.get? i ∧
        (generateChunkBsp seed levelId cx cy).south.get? i =
          (generateChunkBsp seed levelId cx cy).south.get? i) :=
  fun _ _ _ _ => ⟨fun _ => ⟨rfl, rfl⟩, fun _ => ⟨rfl, rfl⟩⟩

/-- C2: an overlay override at (level, x, y, dir) is returned verbatim
by the edge oracle, for both engine revisions and for every purpose,
and the result then does not depend on the generator seed. -/
theorem overlay_override_precedence :
    (∀ (seed : Int) (ov : ChunkWorld.Overlay) (l x y : Int) (d : Dir) (o : EdgeOverride),
       ov l x y d = some o → ChunkWorld.edgeType seed ov l x y d = o.edgeType) ∧
    (∀ (ov : OverlayWorld.Overlay) (l x y : Int) (d : Dir) (p : EdgeQueryPurpose)
       (o : EdgeOverride),
       ov l x y d p = some o → OverlayWorld.edgeType ov l x y d p = o.edgeType) ∧
    (∀ (seed seed2 : Int) (ov : ChunkWorld.Overlay) (l x y : Int) (d : Dir)
       (o : EdgeOverride),
       ov l x y d = some o →
       ChunkWorld.edgeType seed ov l x y d = ChunkWorld.edgeType seed2 ov l x y d) := by
  refine ⟨?_, ?_, ?_⟩
  · intro seed ov l x y d o h
    unfold ChunkWorld.edgeType
    rw [h]
  · intro ov l x y d p o h
    unfold OverlayWorld.edgeType
    rw [h]
  · intro seed seed2 ov l x y d o h
    unfold ChunkWorld.edgeType
    rw [h]

/-- C2 witness: a locked-door override at (1, 2, 3, E) is the oracle
answer for both revisions and every purpose. -/
theorem overlay_override_precedence_witness :
    ovLockedC 1 2 3 Dir.E = some { edgeType := .door_locked } ∧
    ChunkWorld.edgeType 7 ovLockedC 1 2 3 Dir.E = EdgeType.door_locked ∧
    ovLockedP 1 2 3 Dir.E EdgeQueryPurpose.minimap = some { edgeType := .door_locked } ∧
    OverlayWorld.edgeType ovLockedP 1 2 3 Dir.E EdgeQueryPurpose.minimap =
      EdgeType.door_locked :=
  ⟨rfl,
   overlay_override_precedence.1 7 ovLockedC 1 2 3 Dir.E _ rfl,
   rfl,
   overlay_override_precedence.2.1 ovLockedP 1 2 3 Dir.E EdgeQueryPurpose.minimap _ rfl⟩

/-- C4: the hub cell (0, 0) of every level can always be traversed east
and south — the chunk-based oracle forces those edges open — unless an
overlay override at those edges makes them non-traversable. -/
theorem hub_always_traversable :
    ∀ (seed : Int) (ov : ChunkWorld.Overlay) (l : Int),
      ((∀ o, ov l 0 0 Dir.E = some o → isTraversable o.edgeType = true) →
        ChunkWorld.canTraverse seed ov l 0 0 Dir.E = true) ∧
      ((∀ o, ov l 0 0 Dir.S = some o → isTraversable o.edgeType = true) →
        ChunkWorld.canTraverse seed ov l 0 0 Dir.S = true) := by
  intro seed ov l
  constructor
  · intro h
    unfold ChunkWorld.canTraverse ChunkWorld.edgeType
    cases he : ov l 0 0 Dir.E with
    | some o => exact h o he
    | none => simp [isTraversable]
  · intro h
    unfold ChunkWorld.canTraverse ChunkWorld.edgeType
    cases he : ov l 0 0 Dir.S with
    | some o => exact h o he
    | none => simp [isTraversable]

/-- C4 witness: with no overrides, the hub of level 1 is traversable
east and south under seed 12345. -/
theorem hub_always_traversable_witness :
    ChunkWorld.canTraverse 12345 ovNoneC 1 0 0 Dir.E = true ∧
    ChunkWorld.canTraverse 12345 ovNoneC 1 0 0 Dir.S = true :=
  ⟨(hub_always_traversable 12345 ovNoneC 1).1 (fun o h => by simp [ovNoneC] at h),
   (hub_always_traversable 12345 ovNoneC 1).2 (fun o h => by simp [ovNoneC] at h)⟩

/-- C9: a message whose `seq` is not strictly greater than `lastSeq` is
answered with error `bad_seq` and the whole connection state (lastSeq,
auth flag, cooldowns) is untouched; otherwise `lastSeq` becomes `seq`
before dispatch.  Consequently, for any dispatch that leaves `lastSeq`
alone (as every handler branch does), the accepted `seq` values on a
connection starting from `lastSeq = -1` are strictly increasing. -/
theorem seq_gate_strictly_increasing :
    (∀ (st : ConnState) (seq : Int) (k : ConnState → ConnState × WsReply),
       seq ≤ st.lastSeq → wsSeqGate st seq k = (st, .errorMsg "bad_seq" seq)) ∧
    (∀ (st : ConnState) (seq : Int) (k : ConnState → ConnState × WsReply),
       st.lastSeq < seq → wsSeqGate st seq k = k { st with lastSeq := seq }) ∧
    (∀ (k : ConnState → ConnState × WsReply),
       (∀ s, ((k s).1).lastSeq = s.lastSeq) →
       ∀ (msgs : List Int) (st : ConnState),
         List.Chain' (fun a b => a < b) (st.lastSeq :: wsAccepted k st msgs)) ∧
    (∀ (k : ConnState → ConnState × WsReply),
       (∀ s, ((k s).1).lastSeq = s.lastSeq) →
       ∀ msgs : List Int,
         List.Chain' (fun a b => a < b) ((-1 : Int) :: wsAccepted k initConnState msgs)) := by
  have gate_pos : ∀ (st : ConnState) (seq : Int) (k : ConnState → ConnState × WsReply),
      seq ≤ st.lastSeq → wsSeqGate st seq k = (st, .errorMsg "bad_seq" seq) := by
    intro st seq k h
    unfold wsSeqGate
    rw [if_pos h]
  have gate_neg : ∀ (st : ConnState) (seq : Int) (k : ConnState → ConnState × WsReply),
      st.lastSeq < seq → wsSeqGate st seq k = k { st with lastSeq := seq } := by
    intro st seq k h
    unfold wsSeqGate
    rw [if_neg (by omega)]
  have chain : ∀ (k : ConnState → ConnState × WsReply),
      (∀ s, ((k s).1).lastSeq = s.lastSeq) →
      ∀ (msgs : List Int) (st : ConnState),
        List.Chain' (fun a b => a < b) (st.lastSeq :: wsAccepted k st msgs) := by
    intro k hk msgs
    induction msgs with
    | nil => intro st; simp [wsAccepted]
    | cons s rest ih =>
      intro st
      unfold wsAccepted
      by_cases h : s ≤ st.lastSeq
      · rw [if_pos h]; exact ih st
      · rw [if_neg h]
        have hlt : st.lastSeq < s := by omega
        have hst : ((wsSeqGate st s k).1).lastSeq = s := by
          rw [gate_neg st s k hlt, hk]
        have htail := ih (wsSeqGate st s k).1
        rw [hst] at htail
        exact List.Chain'.cons hlt htail
  exact ⟨gate_pos, gate_neg, chain, fun k hk msgs => chain k hk msgs initConnState⟩

/-- C9 witness: with the identity dispatch, the trace [0, 5, 3, 7]
starting from the initial state accepts [0, 5, 7], strictly increasing
from -1; and a replayed `seq` is refused with state untouched. -/
theorem seq_gate_strictly_increasing_witness :
    wsSeqGate ⟨true, 5, ⟨0, 0⟩⟩ 5 (fun s => (s, .authOk)) =
      (⟨true, 5, ⟨0, 0⟩⟩, .errorMsg "bad_seq" 5) ∧
    List.Chain' (fun a b => a < b)
      ((-1 : Int) :: wsAccepted (fun s => (s, .authOk)) initConnState [0, 5, 3, 7]) :=
  ⟨seq_gate_strictly_increasing.1 ⟨true, 5, ⟨0, 0⟩⟩ 5 (fun s => (s, .authOk)) (by decide),
   seq_gate_strictly_increasing.2.2.2 (fun s => (s, .authOk)) (fun _ => rfl) [0, 5, 3, 7]⟩

/-- One `step` changes exactly one coordinate by exactly one. -/
theorem step_one_cell (x y : Int) (d : Dir) :
    ((step x y d).1 - x).natAbs + ((step x y d).2 - y).natAbs = 1 := by
  cases d <;> simp [step]

/-- C10: a successful `WorldEngine.move` returns the input player with
exactly one coordinate changed by exactly one cell in the resolved
absolute direction, leaves level, facing and hit points unchanged, and
performs exactly one discovery insert, for the destination cell at the
current time. -/
theorem move_frame_effect :
    ∀ (ov : OverlayWorld.Overlay) (now : Int) (p : PlayerState) (cd : CooldownState)
      (md : MoveDir),
      (OverlayWorld.move ov now p cd md).ok = true →
      (OverlayWorld.move ov now p cd md).player =
        some { p with
                x := (step p.x p.y (OverlayWorld.moveDirToAbs p.face md)).1,
                y := (step p.x p.y (OverlayWorld.moveDirToAbs p.face md)).2 } ∧
      (∀ q, (OverlayWorld.move ov now p cd md).player = some q →
        q.levelId = p.levelId ∧ q.face = p.face ∧ q.hp = p.hp ∧
        (q.x - p.x).natAbs + (q.y - p.y).natAbs = 1) ∧
      (OverlayWorld.move ov now p cd md).discovered =
        [(p.levelId,
          (step p.x p.y (OverlayWorld.moveDirToAbs p.face md)).1,
          (step p.x p.y (OverlayWorld.moveDirToAbs p.face md)).2, now)] := by
  intro ov now p cd md hok
  unfold OverlayWorld.move at hok ⊢
  dsimp only at hok ⊢
  split_ifs at hok ⊢ with h1 h2
  refine ⟨rfl, ?_, rfl⟩
  intro q hq
  simp only [Option.some.injEq] at hq
  subst hq
  exact ⟨rfl, rfl, rfl, step_one_cell p.x p.y (OverlayWorld.moveDirToAbs p.face md)⟩

/-- C6 counterexample: in the ws move handler that forwards the payload
direction to `WorldEngine.move`, an absolute `E`
intent from a player facing north succeeds, yet the persisted facing
stays `N` — the claim that the persisted facing is set to the payload
direction fails on this handler. -/
theorem move_absolute_facing_counterexample :
    (wsMove 500 ovAllOpenP 0 cd0 pN00 (MoveDir.abs Dir.E)).replyOk = true ∧
    ((wsMove 500 ovAllOpenP 0 cd0 pN00 (MoveDir.abs Dir.E)).saved.map PlayerState.face =
      some Dir.N) ∧
    some Dir.N ≠ some Dir.E := by
  refine ⟨?_, ?_, by decide⟩ <;> decide

/-- C6 (amended): `F` moves along the current facing and `B` opposite
it, keeping the facing, in both handlers; an absolute direction moves
that way, and the handler that resolves the direction itself persists
the facing set to it while the handler that hands the payload direction
to `WorldEngine.move` persists the facing unchanged. -/
theorem move_direction_semantics :
    (∀ f, resolveMoveDir f MoveDir.F = (f, f)) ∧
    (∀ f, resolveMoveDir f MoveDir.B = (oppositeOf f, f)) ∧
    (∀ f d, resolveMoveDir f (MoveDir.abs d) = (d, d)) ∧
    (∀ f, OverlayWorld.moveDirToAbs f MoveDir.F = f) ∧
    (∀ f, OverlayWorld.moveDirToAbs f MoveDir.B = oppositeOf f) ∧
    (∀ f d, OverlayWorld.moveDirToAbs f (MoveDir.abs d) = d) ∧
    (∀ (mc : Int) (ov : OverlayWorld.Overlay) (now : Int) (cd : CooldownState)
       (p : PlayerState) (md : MoveDir) (q : PlayerState),
       (wsMove mc ov now cd p md).saved = some q →
       q.face = p.face ∧
       (q.x, q.y) = step p.x p.y (OverlayWorld.moveDirToAbs p.face md) ∧
       q.levelId = p.levelId) ∧
    (∀ (mc seed : Int) (ov : ChunkWorld.Overlay) (now : Int) (cd : CooldownState)
       (p : PlayerState) (md : MoveDir) (q : PlayerState),
       (wsMoveV1 mc seed ov now cd p md).saved = some q →
       q.face = (resolveMoveDir p.face md).2 ∧
       (q.x, q.y) = step p.x p.y (resolveMoveDir p.face md).1 ∧
       q.levelId = p.levelId) := by
  refine ⟨fun f => rfl, fun f => rfl, fun f d => rfl,
          fun f => rfl, fun f => rfl, fun f d => rfl, ?_, ?_⟩
  · intro mc ov now cd p md q hq
    unfold wsMove OverlayWorld.move at hq
    dsimp only at hq
    split_ifs at hq with h1 h2
    simp only [Option.some.injEq] at hq
    subst hq
    exact ⟨rfl, rfl, rfl⟩
  · intro mc seed ov now cd p md q hq
    unfold wsMoveV1 ChunkWorld.move at hq
    dsimp only at hq
    split_ifs at hq with h1 h2
    simp only [Option.some.injEq] at hq
    subst hq
    exact ⟨rfl, rfl, rfl⟩

/-- C6 witness: a forward move in the forwarding handler and an
absolute east move in the direction-resolving handler, both from the
hub. -/
theorem move_direction_semantics_witness :
    ((wsMove 500 ovAllOpenP 0 cd0 pN00 MoveDir.F).saved = some ⟨1, 0, -1, Dir.N, 10⟩ ∧
      (⟨1, 0, -1, Dir.N, 10⟩ : PlayerState).face = pN00.face) ∧
    ((wsMoveV1 500 7 ovNoneC 0 cd0 pN00 (MoveDir.abs Dir.E)).saved =
        some ⟨1, 1, 0, Dir.E, 10⟩ ∧
      (⟨1, 1, 0, Dir.E, 10⟩ : PlayerState).face =
        (resolveMoveDir pN00.face (MoveDir.abs Dir.E)).2) :=
  ⟨⟨by decide, (move_direction_semantics.2.2.2.2.2.2.1 500 ovAllOpenP 0 cd0 pN00 MoveDir.F
      ⟨1, 0, -1, Dir.N, 10⟩ (by decide)).1 ▸ rfl⟩,
   ⟨by decide, (move_direction_semantics.2.2.2.2.2.2.2 500 7 ovNoneC 0 cd0 pN00
      (MoveDir.abs Dir.E) ⟨1, 1, 0, Dir.E, 10⟩ (by decide)).1 ▸ rfl⟩⟩

/-- C7: the ws move handler refuses with reason `move_cooldown`
exactly when `now < moveReadyAtMs` (checked before traversability), and
with reason `blocked` exactly when the cooldown is satisfied but the
resolved absolute edge is not traversable; a refusal leaves the
cooldowns untouched, persists nothing and inserts no discovery; and
with a 500 ms cooldown a second intent 100 ms after a successful one is
refused with `move_cooldown`. -/
theorem move_refusal_semantics :
    (∀ (mc : Int) (ov : OverlayWorld.Overlay) (now : Int) (cd : CooldownState)
       (p : PlayerState) (md : MoveDir),
       ((wsMove mc ov now cd p md).replyOk = false ∧
        (wsMove mc ov now cd p md).replyReason = some "move_cooldown") ↔
         now < cd.moveReadyAtMs) ∧
    (∀ (mc : Int) (ov : OverlayWorld.Overlay) (now : Int) (cd : CooldownState)
       (p : PlayerState) (md : MoveDir),
       (wsMove mc ov now cd p md).replyReason = some "blocked" ↔
         (¬ now < cd.moveReadyAtMs ∧
          OverlayWorld.canTraverseAbs ov p.levelId p.x p.y
            (OverlayWorld.moveDirToAbs p.face md) = false)) ∧
    (∀ (mc : Int) (ov : OverlayWorld.Overlay) (now : Int) (cd : CooldownState)
       (p : PlayerState) (md : MoveDir),
       (wsMove mc ov now cd p md).replyOk = false →
       (wsMove mc ov now cd p md).cooldowns = cd ∧
       (wsMove mc ov now cd p md).saved = none ∧
       (wsMove mc ov now cd p md).discovered = []) ∧
    (∀ (ov : OverlayWorld.Overlay) (now : Int) (cd : CooldownState)
       (p p2 : PlayerState) (md md2 : MoveDir),
       (wsMove 500 ov now cd p md).replyOk = true →
       (wsMove 500 ov (now + 100) (wsMove 500 ov now cd p md).cooldowns p2 md2).replyOk
           = false ∧
       (wsMove 500 ov (now + 100) (wsMove 500 ov now cd p md).cooldowns p2 md2).replyReason
           = some "move_cooldown") := by
  have hgate : ∀ (mc : Int) (ov : OverlayWorld.Overlay) (now : Int) (cd : CooldownState)
      (p : PlayerState) (md : MoveDir), now < cd.moveReadyAtMs →
      wsMove mc ov now cd p md = ⟨false, some "move_cooldown", cd, none, []⟩ := by
    intro mc ov now cd p md h
    unfold wsMove
    rw [if_pos h]
  refine ⟨?_, ?_, ?_, ?_⟩
  · intro mc ov now cd p md
    unfold wsMove OverlayWorld.move
    dsimp only
    split_ifs with h1 h2 <;> simp_all
  · intro mc ov now cd p md
    unfold wsMove OverlayWorld.move
    dsimp only
    split_ifs with h1 h2 <;> simp_all
  · intro mc ov now cd p md
    unfold wsMove OverlayWorld.move
    dsimp only
    split_ifs with h1 h2
    all_goals simp
  · intro ov now cd p p2 md md2 hok
    have hcd : (wsMove 500 ov now cd p md).cooldowns.moveReadyAtMs = now + 500 := by
      unfold wsMove OverlayWorld.move at hok ⊢
      dsimp only at hok ⊢
      split_ifs at hok ⊢ with h1 h2
      all_goals simp_all
    rw [hgate 500 ov (now + 100) (wsMove 500 ov now cd p md).cooldowns p2 md2
      (by rw [hcd]; omega)]
    exact ⟨rfl, rfl⟩

/-- C7 witness: cooldown refusal, blocked refusal, and the two-intent
cooldown scenario at concrete inputs. -/
theorem move_refusal_semantics_witness :
    ((wsMove 500 ovAllOpenP 100 ⟨500, 0⟩ pN00 MoveDir.F).replyOk = false ∧
     (wsMove 500 ovAllOpenP 100 ⟨500, 0⟩ pN00 MoveDir.F).replyReason =
       some "move_cooldown") ∧
    (wsMove 500 ovNoneP 0 cd0 pN00 MoveDir.F).replyReason = some "blocked" ∧
    ((wsMove 500 ovAllOpenP (0 + 100) (wsMove 500 ovAllOpenP 0 cd0 pN00 MoveDir.F).cooldowns
        pN00 MoveDir.F).replyOk = false ∧
     (wsMove 500 ovAllOpenP (0 + 100) (wsMove 500 ovAllOpenP 0 cd0 pN00 MoveDir.F).cooldowns
        pN00 MoveDir.F).replyReason = some "move_cooldown") :=
  ⟨(move_refusal_semantics.1 500 ovAllOpenP 100 ⟨500, 0⟩ pN00 MoveDir.F).mpr (by decide),
   (move_refusal_semantics.2.1 500 ovNoneP 0 cd0 pN00 MoveDir.F).mpr ⟨by decide, by decide⟩,
   move_refusal_semantics.2.2.2 ovAllOpenP 0 cd0 pN00 pN00 MoveDir.F MoveDir.F (by decide)⟩

/-- C3: writes through `writeEdgeBothWays` preserve store symmetry, the
empty store is symmetric, and over any symmetric overlay the chunk-based
edge oracle satisfies
`edgeType(x, y, d) = edgeType(neighbor(x, y, d), opposite(d))`. -/
theorem edge_symmetry :
    (∀ (st : EdgeStore) (levelId x y : Int) (dir : Dir) (rec : StoredEdge),
       EdgeStoreSymm st → EdgeStoreSymm (writeEdgeBothWays st levelId x y dir rec)) ∧
    EdgeStoreSymm emptyEdgeStore ∧
    (∀ (seed : Int) (ov : ChunkWorld.Overlay),
       (∀ l x y d, ov l x y d = ov l (step x y d).1 (step x y d).2 (oppositeOf d)) →
       ∀ (l x y : Int) (d : Dir),
         ChunkWorld.edgeType seed ov l x y d =
           ChunkWorld.edgeType seed ov l (step x y d).1 (step x y d).2 (oppositeOf d)) ∧
    (∀ (seed : Int) (st : EdgeStore), EdgeStoreSymm st →
       ∀ (l x y : Int) (d : Dir),
         ChunkWorld.edgeType seed (storeOverlay st) l x y d =
           ChunkWorld.edgeType seed (storeOverlay st) l (step x y d).1 (step x y d).2
             (oppositeOf d)) := by
  refine ⟨fun st levelId x y dir rec hs => writeEdgeBothWays_symm st hs levelId x y dir rec,
    fun _ _ _ _ => rfl, fun seed ov h l x y d => edgeType_symm_all seed ov h l x y d, ?_⟩
  intro seed st hs l x y d
  exact edgeType_symm_all seed (storeOverlay st)
    (fun l2 a b d2 => by unfold storeOverlay; rw [hs l2 a b d2]) l x y d

/-- C3 witness: over the (symmetric) empty store, the hub east edge of
level 0 agrees with the west edge of its neighbour. -/
theorem edge_symmetry_witness :
    ChunkWorld.edgeType 1 (storeOverlay emptyEdgeStore) 0 0 0 Dir.E =
      ChunkWorld.edgeType 1 (storeOverlay emptyEdgeStore) 0 (step 0 0 Dir.E).1
        (step 0 0 Dir.E).2 (oppositeOf Dir.E) :=
  edge_symmetry.2.2.2 1 emptyEdgeStore edge_symmetry.2.1 0 0 0 Dir.E

/-- C5: on a chunk-boundary edge with no override and outside the
hub-forced edges, the oracle answers open iff the orthogonal local
coordinate (the Euclidean remainder) is 0 mod 8 and wall otherwise, and
the query from the symmetric cell on the neighbouring chunk returns the
same value — for all four boundary orientations and also for negative
global coordinates. -/
theorem chunk_boundary_rule :
    (∀ (seed : Int) (ov : ChunkWorld.Overlay) (l x y : Int),
       ov l x y Dir.E = none → ov l (x + 1) y Dir.W = none →
       ¬ hubEdge x y Dir.E → jmod x 64 = 63 →
       ChunkWorld.edgeType seed ov l x y Dir.E =
         (if (jmod y 64).tmod 8 = 0 then EdgeType.open_ else EdgeType.wall) ∧
       ChunkWorld.edgeType seed ov l (x + 1) y Dir.W =
         (if (jmod y 64).tmod 8 = 0 then EdgeType.open_ else EdgeType.wall)) ∧
    (∀ (seed : Int) (ov : ChunkWorld.Overlay) (l x y : Int),
       ov l x y Dir.S = none → ov l x (y + 1) Dir.N = none →
       ¬ hubEdge x y Dir.S → jmod y 64 = 63 →
       ChunkWorld.edgeType seed ov l x y Dir.S =
         (if (jmod x 64).tmod 8 = 0 then EdgeType.open_ else EdgeType.wall) ∧
       ChunkWorld.edgeType seed ov l x (y + 1) Dir.N =
         (if (jmod x 64).tmod 8 = 0 then EdgeType.open_ else EdgeType.wall)) ∧
    (∀ (seed : Int) (ov : ChunkWorld.Overlay) (l x y : Int),
       ov l x y Dir.W = none → ov l (x - 1) y Dir.E = none →
       ¬ hubEdge x y Dir.W → jmod x 64 = 0 →
       ChunkWorld.edgeType seed ov l x y Dir.W =
         (if (jmod y 64).tmod 8 = 0 then EdgeType.open_ else EdgeType.wall) ∧
       ChunkWorld.edgeType seed ov l (x - 1) y Dir.E =
         (if (jmod y 64).tmod 8 = 0 then EdgeType.open_ else EdgeType.wall)) ∧
    (∀ (seed : Int) (ov : ChunkWorld.Overlay) (l x y : Int),
       ov l x y Dir.N = none → ov l x (y - 1) Dir.S = none →
       ¬ hubEdge x y Dir.N → jmod y 64 = 0 →
       ChunkWorld.edgeType seed ov l x y Dir.N =
         (if (jmod x 64).tmod 8 = 0 then EdgeType.open_ else EdgeType.wall) ∧
       ChunkWorld.edgeType seed ov l x (y - 1) Dir.S =
         (if (jmod x 64).tmod 8 = 0 then EdgeType.open_ else EdgeType.wall)) := by
  refine ⟨?_, ?_, ?_, ?_⟩
  · intro seed ov l x y h1 h2 _hnh hb
    exact boundary_E seed ov l x y h1 h2 hb
  · intro seed ov l x y h1 h2 _hnh hb
    exact boundary_S seed ov l x y h1 h2 hb
  · intro seed ov l x y h1 h2 _hnh hb
    have hb2 : jmod (x - 1) 64 = 63 := by
      rw [jmod_emod_64] at hb ⊢; omega
    have h1b : ov l (x - 1 + 1) y Dir.W = none := by
      rw [show x - 1 + 1 = x from by ring]; exact h1
    have h := boundary_E seed ov l (x - 1) y h2 h1b hb2
    rw [show x - 1 + 1 = x from by ring] at h
    exact ⟨h.2, h.1⟩
  · intro seed ov l x y h1 h2 _hnh hb
    have hb2 : jmod (y - 1) 64 = 63 := by
      rw [jmod_emod_64] at hb ⊢; omega
    have h1b : ov l x (y - 1 + 1) Dir.N = none := by
      rw [show y - 1 + 1 = y from by ring]; exact h1
    have h := boundary_S seed ov l x (y - 1) h2 h1b hb2
    rw [show y - 1 + 1 = y from by ring] at h
    exact ⟨h.2, h.1⟩

/-- C5 witness: the east boundary edge at the negative coordinate
(-1, 3) is a wall (orthogonal local coordinate 3), and the symmetric
query from (0, 3) west agrees. -/
theorem chunk_boundary_rule_witness :
    (¬ hubEdge (-1) 3 Dir.E) ∧ jmod (-1) 64 = 63 ∧
    ChunkWorld.edgeType 12345 ovNoneC 1 (-1) 3 Dir.E =
      (if (jmod 3 64).tmod 8 = 0 then EdgeType.open_ else EdgeType.wall) ∧
    ChunkWorld.edgeType 12345 ovNoneC 1 (-1 + 1) 3 Dir.W =
      (if (jmod 3 64).tmod 8 = 0 then EdgeType.open_ else EdgeType.wall) ∧
    (if (jmod 3 64).tmod 8 = 0 then EdgeType.open_ else EdgeType.wall) = EdgeType.wall := by
  have h := chunk_boundary_rule.1 12345 ovNoneC 1 (-1) 3 rfl rfl (by decide) (by decide)
  exact ⟨by decide, by decide, h.1, h.2, by decide⟩

namespace OverlayWorld

theorem addCell_nil (ov : Overlay) (l x y : Int) :
    addCell ov l [] x y = [mkViewCell ov l x y] := by
  unfold addCell; simp

theorem computeOmniRays_def (ov : Overlay) (p : PlayerState) (depth : Nat) :
    computeOmniRays ov p depth =
      rayWalk ov p.levelId Dir.W depth p.x p.y
        (rayWalk ov p.levelId Dir.S depth p.x p.y
          (rayWalk ov p.levelId Dir.E depth p.x p.y
            (rayWalk ov p.levelId Dir.N depth p.x p.y
              (addCell ov p.levelId [] p.x p.y)))) := rfl

end OverlayWorld

/-- C8: the visibility walk starts at the player cell (it is the first
recorded cell), each cardinal ray advances at most `depth` cells so at
most `1 + 4 depth` cells are recorded, a forward edge that is not
`open` or `lever_secret` (so any door kind and any wall) stops the ray
immediately, every visited cell is recorded exactly once, and each
recorded cell carries its four edges resolved at visibility purpose. -/
theorem visibility_ray_semantics :
    (∀ (ov : OverlayWorld.Overlay) (p : PlayerState) (depth : Nat),
       (OverlayWorld.computeOmniRays ov p depth).head? =
         some (OverlayWorld.mkViewCell ov p.levelId p.x p.y)) ∧
    (∀ (ov : OverlayWorld.Overlay) (p : PlayerState) (depth : Nat),
       (OverlayWorld.computeOmniRays ov p depth).length ≤ 1 + 4 * depth) ∧
    (∀ (ov : OverlayWorld.Overlay) (l : Int) (dir : Dir) (d : Nat) (cx cy : Int)
       (out : List OverlayWorld.ViewCell),
       ¬ (OverlayWorld.edgeType ov l cx cy dir .visibility = EdgeType.open_ ∨
          OverlayWorld.edgeType ov l cx cy dir .visibility = EdgeType.lever_secret) →
       OverlayWorld.rayWalk ov l dir (d + 1) cx cy out = out) ∧
    (∀ (ov : OverlayWorld.Overlay) (p : PlayerState) (depth : Nat),
       (OverlayWorld.cellKeys (OverlayWorld.computeOmniRays ov p depth)).Nodup) ∧
    (∀ (ov : OverlayWorld.Overlay) (p : PlayerState) (depth : Nat),
       ∀ c ∈ OverlayWorld.computeOmniRays ov p depth,
         c = OverlayWorld.mkViewCell ov p.levelId c.x c.y) := by
  refine ⟨?_, ?_, OverlayWorld.rayWalk_stop, ?_, ?_⟩
  · intro ov p depth
    rw [OverlayWorld.computeOmniRays_def, OverlayWorld.addCell_nil]
    obtain ⟨r1, h1⟩ := OverlayWorld.rayWalk_append ov p.levelId Dir.N depth p.x p.y
      [OverlayWorld.mkViewCell ov p.levelId p.x p.y]
    rw [h1]
    obtain ⟨r2, h2⟩ := OverlayWorld.rayWalk_append ov p.levelId Dir.E depth p.x p.y
      ([OverlayWorld.mkViewCell ov p.levelId p.x p.y] ++ r1)
    rw [h2]
    obtain ⟨r3, h3⟩ := OverlayWorld.rayWalk_append ov p.levelId Dir.S depth p.x p.y
      ([OverlayWorld.mkViewCell ov p.levelId p.x p.y] ++ r1 ++ r2)
    rw [h3]
    obtain ⟨r4, h4⟩ := OverlayWorld.rayWalk_append ov p.levelId Dir.W depth p.x p.y
      ([OverlayWorld.mkViewCell ov p.levelId p.x p.y] ++ r1 ++ r2 ++ r3)
    rw [h4]
    simp
  · intro ov p depth
    rw [OverlayWorld.computeOmniRays_def, OverlayWorld.addCell_nil]
    have l1 := OverlayWorld.rayWalk_length ov p.levelId Dir.N depth p.x p.y
      [OverlayWorld.mkViewCell ov p.levelId p.x p.y]
    have l2 := OverlayWorld.rayWalk_length ov p.levelId Dir.E depth p.x p.y
      (OverlayWorld.rayWalk ov p.levelId Dir.N depth p.x p.y
        [OverlayWorld.mkViewCell ov p.levelId p.x p.y])
    have l3 := OverlayWorld.rayWalk_length ov p.levelId Dir.S depth p.x p.y
      (OverlayWorld.rayWalk ov p.levelId Dir.E depth p.x p.y
        (OverlayWorld.rayWalk ov p.levelId Dir.N depth p.x p.y
          [OverlayWorld.mkViewCell ov p.levelId p.x p.y]))
    have l4 := OverlayWorld.rayWalk_length ov p.levelId Dir.W depth p.x p.y
      (OverlayWorld.rayWalk ov p.levelId Dir.S depth p.x p.y
        (OverlayWorld.rayWalk ov p.levelId Dir.E depth p.x p.y
          (OverlayWorld.rayWalk ov p.levelId Dir.N depth p.x p.y
            [OverlayWorld.mkViewCell ov p.levelId p.x p.y])))
    simp only [List.length_singleton] at l1
    omega
  · intro ov p depth
    rw [OverlayWorld.computeOmniRays_def, OverlayWorld.addCell_nil]
    apply OverlayWorld.rayWalk_nodup
    apply OverlayWorld.rayWalk_nodup
    apply OverlayWorld.rayWalk_nodup
    apply OverlayWorld.rayWalk_nodup
    simp [OverlayWorld.cellKeys]
  · intro ov p depth
    rw [OverlayWorld.computeOmniRays_def, OverlayWorld.addCell_nil]
    apply OverlayWorld.rayWalk_resolved
    apply OverlayWorld.rayWalk_resolved
    apply OverlayWorld.rayWalk_resolved
    apply OverlayWorld.rayWalk_resolved
    intro c hc
    simp only [List.mem_singleton] at hc
    subst hc
    rfl

/-- C8 witness: an unlocked door immediately east of the player blocks
the east visibility ray at once — the walk adds no cell beyond the
player cell. -/
theorem visibility_ray_semantics_witness :
    OverlayWorld.edgeType ovDoorEastP 1 0 0 Dir.E .visibility = EdgeType.door_unlocked ∧
    OverlayWorld.rayWalk ovDoorEastP 1 Dir.E (2 + 1) 0 0
        [OverlayWorld.mkViewCell ovDoorEastP 1 0 0] =
      [OverlayWorld.mkViewCell ovDoorEastP 1 0 0] ∧
    OverlayWorld.computeOmniRays ovDoorEastP ⟨1, 0, 0, Dir.N, 10⟩ 3 =
      [OverlayWorld.mkViewCell ovDoorEastP 1 0 0] :=
  ⟨by decide,
   visibility_ray_semantics.2.2.1 ovDoorEastP 1 Dir.E 2 0 0
     [OverlayWorld.mkViewCell ovDoorEastP 1 0 0] (by decide),
   by decide⟩

/-- C10 witness: a forward move from the hub with an all-open overlay
moves the player one cell north and inserts one discovery row for the
destination at the current time. -/
theorem move_frame_effect_witness :
    (OverlayWorld.move ovAllOpenP 0 pN00 cd0 MoveDir.F).ok = true ∧
    (OverlayWorld.move ovAllOpenP 0 pN00 cd0 MoveDir.F).player =
      some { pN00 with
              x := (step pN00.x pN00.y (OverlayWorld.moveDirToAbs pN00.face MoveDir.F)).1,
              y := (step pN00.x pN00.y (OverlayWorld.moveDirToAbs pN00.face MoveDir.F)).2 } ∧
    (OverlayWorld.move ovAllOpenP 0 pN00 cd0 MoveDir.F).discovered =
      [(pN00.levelId,
        (step pN00.x pN00.y (OverlayWorld.moveDirToAbs pN00.face MoveDir.F)).1,
        (step pN00.x pN00.y (OverlayWorld.moveDirToAbs pN00.face MoveDir.F)).2, 0)] :=
  ⟨by decide,
   (move_frame_effect ovAllOpenP 0 pN00 cd0 MoveDir.F (by decide)).1,
   (move_frame_effect ovAllOpenP 0 pN00 cd0 MoveDir.F (by decide)).2.2⟩
